import Mathlib

set_option maxRecDepth 4000

/-!
Verification of the yargitay-bot ingestion pipeline (uploader, metadata
index, blob store, reader) against its natural-language specification.

The Python source is shallowly embedded: dictionaries become structures
with `Option` fields (a missing key is `none`), JSON-ish Python values
become `JVal`, stateful handlers become explicit state passing, and
fallible code returns `Except`.  SQL stores are modelled as lists of rows;
`SELECT ... LIMIT 20` without `ORDER BY` returns rows in an unspecified
order, modelled here as the list order of the state.
-/

namespace Yargitay

instance {ε α : Type} [DecidableEq ε] [DecidableEq α] :
    DecidableEq (Except ε α) := fun a b =>
  match a, b with
  | .ok x, .ok y =>
      if h : x = y then isTrue (by rw [h])
      else isFalse (by intro hh; cases hh; exact h rfl)
  | .error x, .error y =>
      if h : x = y then isTrue (by rw [h])
      else isFalse (by intro hh; cases hh; exact h rfl)
  | .ok _, .error _ => isFalse (by intro hh; cases hh)
  | .error _, .ok _ => isFalse (by intro hh; cases hh)

/-- A Python value as it occurs in the JSON records this pipeline
handles: `None`, a string, or an integer. -/
inductive JVal where
  | null
  | str (s : String)
  | int (n : Int)
deriving DecidableEq, Repr

/-- Python truthiness for the values above: `None` and `""` and `0` are
falsy, everything else truthy. -/
def JVal.truthy : JVal → Bool
  | .null => false
  | .str s => s ≠ ""
  | .int n => n ≠ 0

/-- Python `str()` on these values (`str(None) = "None"`). -/
def JVal.pyStr : JVal → String
  | .null => "None"
  | .str s => s
  | .int n => toString n

/-- Python `a or b` (returns `a` when truthy, else `b`). -/
def pyOr (a b : JVal) : JVal := if a.truthy then a else b

/-- A Python value stored into a TEXT-ish SQL column, as the row model
keeps it: `None` becomes SQL NULL, a string stays itself, an integer is
kept via its decimal rendering (TEXT affinity). -/
def JVal.toOptStr : JVal → Option String
  | .null => none
  | .str s => some s
  | .int n => some (toString n)

/-- `str.isdigit` restricted to ASCII decimal digits (the ids this
pipeline sees are ASCII). -/
def pyIsDigit (s : String) : Bool :=
  s ≠ "" && s.data.all Char.isDigit

/-- Value of an all-digit ASCII string (helper for `int(...)` on strings
that passed `isdigit`). -/
def digitsToNat (l : List Char) : Nat :=
  l.foldl (fun acc c => acc * 10 + (c.toNat - 48)) 0

/-- Python `int(record_id)` as used after an `isdigit` guard: for a
string of digits, its numeric value; for an integer, itself. -/
def jvalToIntDigits (v : JVal) : Int :=
  match v with
  | .int n => n
  | .str s => (digitsToNat s.data : Int)
  | .null => 0

/-- Python `int(x)` in general (used unguarded by `process_file`):
succeeds on integers and on (optionally sign-prefixed) digit strings,
raises `ValueError` otherwise. -/
def pyInt : JVal → Except String Int
  | .int n => .ok n
  | .str s =>
      match s.data with
      | '-' :: rest =>
          if rest ≠ [] && rest.all Char.isDigit then
            .ok (-(digitsToNat rest : Int))
          else .error "ValueError"
      | l =>
          if l ≠ [] && l.all Char.isDigit then .ok (digitsToNat l : Int)
          else .error "ValueError"
  | .null => .error "TypeError"

/-- Python slice `s[:n]` (the first `n` characters). -/
def pyTake (s : String) (n : Nat) : String := String.mk (s.data.take n)

/-- Python whitespace class `\s` (ASCII part; the texts handled here are
ASCII/Turkish letters, whose non-ASCII code points are not whitespace). -/
def isSpacePy (c : Char) : Bool :=
  c = ' ' || c = '\t' || c = '\n' || c = '\r' || c = '\x0b' || c = '\x0c'

/-- ASCII-lowercasing of a character, the case folding both `ILIKE`
(PostgreSQL) and `LIKE` (SQLite, ASCII only) perform. -/
def lowerAscii (c : Char) : Char := c.toLower

/-- Case-insensitive (ASCII) substring test — the spec's reading of the
`daire`/`keyword` filters ("case-insensitive substring match"). -/
def iContains (hay needle : String) : Bool :=
  let h := hay.data.map lowerAscii
  let n := needle.data.map lowerAscii
  (h.tails.any fun t => n.isPrefixOf t)

/-- SQL `LIKE` pattern matching as PostgreSQL `ILIKE` and SQLite `LIKE`
(no `ESCAPE` clause is used by this code) evaluate it: `%` matches any
character sequence (empty included), `_` matches exactly one character,
anything else matches itself up to ASCII case folding (SQLite folds
ASCII only; `ILIKE`'s locale folding coincides on the ASCII data this
pipeline stores). -/
def likeMatch : List Char → List Char → Bool
  | [], t => t.isEmpty
  | '%' :: p, t => t.tails.any fun s => likeMatch p s
  | '_' :: p, t =>
      match t with
      | [] => false
      | _ :: t2 => likeMatch p t2
  | c :: p, t =>
      match t with
      | [] => false
      | x :: t2 => (lowerAscii x = lowerAscii c) && likeMatch p t2

/-- `column LIKE '%' || v || '%'` / `column ILIKE %s` with parameter
`f"%{v}%"`: the filter value is interpolated into the pattern, so any
`%`/`_` it contains act as wildcards. -/
def sqlLikeContains (hay v : String) : Bool :=
  likeMatch ('%' :: (v.data ++ ['%'])) hay.data

/-- A filter value containing no SQL wildcard; for such values
`LIKE '%v%'` is exactly the case-insensitive substring test
(`sqlLikeContains_eq_iContains`). -/
def noWildcards (v : String) : Bool :=
  v.data.all fun c => c ≠ '%' && c ≠ '_' 

/-- Byte-wise string comparison (`memcmp` order), the comparison SQLite
applies to TEXT values and the order PostgreSQL's DATE comparison
coincides with on ISO-formatted dates. -/
def strLtB : List Char → List Char → Bool
  | [], [] => false
  | [], _ :: _ => true
  | _ :: _, [] => false
  | a :: as, b :: bs =>
      if a.toNat < b.toNat then true
      else if a.toNat = b.toNat then strLtB as bs
      else false

/-- `a <= b` in the byte-wise order above. -/
def strLeB (a b : String) : Bool :=
  strLtB a.data b.data || a == b

/-- Python `str.strip()` (both ends, `\s` class). -/
def pyStrip (s : String) : String :=
  String.mk ((s.data.dropWhile isSpacePy).reverse.dropWhile isSpacePy).reverse

/-- Python `str.split('.')`: splits at every dot, keeping empty parts. -/
def pySplitDot (s : String) : List String :=
  (s.data.splitOn '.').map String.mk

/-!
### `Uploader.extract_metadata` — text normalization

`clean_text = text.replace('\xa0', ' ').replace('&nbsp;', ' ')` followed by
`clean_text = re.sub(r'<[^>]+>', ' ', clean_text)`.
-/

/-- `text.replace('\xa0', ' ')`. -/
def replXa0 (l : List Char) : List Char :=
  l.map fun c => if c = '\xa0' then ' ' else c

/-- `text.replace('&nbsp;', ' ')`: left-to-right non-overlapping
replacement of the 6-character pattern by one space. -/
def replNbsp : List Char → List Char
  | '&' :: 'n' :: 'b' :: 's' :: 'p' :: ';' :: r => ' ' :: replNbsp r
  | c :: r => c :: replNbsp r
  | [] => []

/-- Whether the list starts with the `&nbsp;` pattern. -/
def isNbspAt : List Char → Bool
  | '&' :: 'n' :: 'b' :: 's' :: 'p' :: ';' :: _ => true
  | _ => false

/-- Whether `&nbsp;` occurs anywhere in the list. -/
def hasNbsp : List Char → Bool
  | [] => false
  | c :: t => isNbspAt (c :: t) || hasNbsp t

/-- Position of the first `'>'`: `some (before, after)` splits the list as
`before ++ '>' :: after` with no `'>'` in `before`; `none` if absent. -/
def splitAtGt : List Char → Option (List Char × List Char)
  | [] => none
  | c :: r =>
      if c = '>' then some ([], r)
      else (splitAtGt r).map fun p => (c :: p.1, p.2)

theorem splitAtGt_some_length {l b a : List Char}
    (h : splitAtGt l = some (b, a)) : a.length < l.length := by
  induction l generalizing b a with
  | nil => simp [splitAtGt] at h
  | cons c r ih =>
    by_cases hc : c = '>'
    · rw [splitAtGt, if_pos hc] at h
      cases h
      simp
    · rw [splitAtGt, if_neg hc] at h
      rcases hr : splitAtGt r with _ | ⟨b2, a2⟩
      · rw [hr] at h; simp at h
      · rw [hr] at h
        simp only [Option.map_some'] at h
        cases h
        have := ih hr
        simp
        omega

/-- One-pass scanner for `re.sub(r'<[^>]+>', ' ', s)`.  In state `none`
characters are copied; a `'<'` enters state `some buf`, which buffers
the characters scanned since that `'<'`.  A `'>'` with a non-empty
buffer completes a match -- the whole `<...>` region is replaced by one
space; a `'>'` with an empty buffer means the regex cannot match at that
`'<'` (`[^>]+` needs at least one character), so `<>` is emitted
literally; exhausting the input with a pending buffer emits the `'<'`
and the buffer literally (no closing `'>'` exists, and no later match
can start inside the buffer since nothing after it holds a `'>'`).
`stripTags_eq_splitAtGt` below restates this as the leftmost-match
semantics of the Python regex. -/
def stripTagsAux : Option (List Char) → List Char → List Char
  | none, [] => []
  | none, c :: r =>
      if c = '<' then stripTagsAux (some []) r else c :: stripTagsAux none r
  | some buf, [] => '<' :: buf
  | some buf, c :: r =>
      if c = '>' then
        if buf.isEmpty then '<' :: '>' :: stripTagsAux none r
        else ' ' :: stripTagsAux none r
      else stripTagsAux (some (buf ++ [c])) r

/-- `re.sub(r'<[^>]+>', ' ', s)`: each leftmost occurrence of a `'<'`
followed (at distance ≥ 2) by a `'>'` with no intervening `'>'` is
replaced, with the `'>'`, by a single space; scanning resumes after it. -/
def stripTags (l : List Char) : List Char := stripTagsAux none l

/-- The scanner in the pending state resolves by the position of the
first `'>'` in the rest of the input. -/
theorem stripTagsAux_pending (l buf : List Char) :
    stripTagsAux (some buf) l =
      match splitAtGt l with
      | some (b, a) =>
          if buf.isEmpty && b.isEmpty then '<' :: '>' :: stripTagsAux none a
          else ' ' :: stripTagsAux none a
      | none => '<' :: (buf ++ l) := by
  induction l generalizing buf with
  | nil => simp [stripTagsAux, splitAtGt]
  | cons c r ih =>
    by_cases hc : c = '>'
    · subst hc
      simp only [stripTagsAux, splitAtGt, if_pos rfl, reduceIte]
      by_cases hb : buf.isEmpty <;> simp [hb]
    · rw [show stripTagsAux (some buf) (c :: r) = stripTagsAux (some (buf ++ [c])) r by
        simp [stripTagsAux, hc]]
      rw [ih]
      rcases hr : splitAtGt r with _ | ⟨b, a⟩
      · simp [splitAtGt, hc, hr]
      · simp [splitAtGt, hc, hr]

/-- `stripTags` on text beginning with `'<'`, phrased through the
position of the first subsequent `'>'`: this is exactly the Python
regex's leftmost-match behaviour (`<[^>]+>` matches at this `'<'` iff
the first `'>'` afterwards is at distance ≥ 2; on a match the whole
region becomes one space and scanning resumes after the `'>'`; `<>`
admits no match at the `'<'`, and a `'<'` with no later `'>'` admits
none either). -/
theorem stripTags_eq_splitAtGt (r : List Char) :
    stripTags ('<' :: r) =
      match splitAtGt r with
      | some (b, a) =>
          if b.isEmpty then '<' :: '>' :: stripTags a else ' ' :: stripTags a
      | none => '<' :: r := by
  show stripTagsAux (some []) r = _
  rw [stripTagsAux_pending]
  rcases hr : splitAtGt r with _ | ⟨b, a⟩ <;> simp [stripTags]

theorem stripTags_nil : stripTags [] = [] := rfl

theorem stripTags_cons_ne (c : Char) (r : List Char) (h : c ≠ '<') :
    stripTags (c :: r) = c :: stripTags r := by
  simp [stripTags, stripTagsAux, h]

theorem stripTags_lt_of_empty {r a : List Char}
    (h : splitAtGt r = some ([], a)) :
    stripTags ('<' :: r) = '<' :: '>' :: stripTags a := by
  rw [stripTags_eq_splitAtGt, h]
  rfl

theorem stripTags_lt_of_nonempty {r b a : List Char}
    (h : splitAtGt r = some (b, a)) (hb : b ≠ []) :
    stripTags ('<' :: r) = ' ' :: stripTags a := by
  have hbe : b.isEmpty = false := by simpa using hb
  rw [stripTags_eq_splitAtGt, h]
  simp [hbe]

theorem stripTags_lt_of_none {r : List Char} (h : splitAtGt r = none) :
    stripTags ('<' :: r) = '<' :: r := by
  rw [stripTags_eq_splitAtGt, h]

/-- The normalisation `extract_metadata` applies before its regex
searches (`\xa0`/`&nbsp;` to space, then markup tags stripped). -/
def cleanText (t : String) : String :=
  String.mk (stripTags (replNbsp (replXa0 t.data)))

/-!
### `Uploader.extract_metadata` — the two regex searches

The two patterns are hand-compiled to CPS backtracking matchers whose
alternative order mirrors the Python `re` engine (greedy repetition tries
the longest continuation first, lazy `.*?` the shortest; `re.search`
takes the leftmost starting position that admits a match).
-/

/-- Greedy `p*`: consume as many `p`-characters as possible, backtracking
one at a time into the continuation. -/
def starG {α : Type} (p : Char → Bool) : List Char → (List Char → Option α) → Option α
  | [], k => k []
  | c :: r, k =>
      if p c then (starG p r k).orElse fun _ => k (c :: r)
      else k (c :: r)

/-- Greedy `p+`: one mandatory `p`-character, then greedy `p*`. -/
def plusG {α : Type} (p : Char → Bool) (l : List Char) (k : List Char → Option α) : Option α :=
  match l with
  | c :: r => if p c then starG p r k else none
  | [] => none

/-- Lazy `.*?` under `re.DOTALL`: try the continuation here first, else
consume one (arbitrary) character and repeat. -/
def starLany {α : Type} : List Char → (List Char → Option α) → Option α
  | [], k => k []
  | c :: r, k => (k (c :: r)).orElse fun _ => starLany r k

/-- A single literal character (case-sensitive). -/
def litC {α : Type} (c : Char) (l : List Char) (k : List Char → Option α) : Option α :=
  match l with
  | x :: r => if x = c then k r else none
  | [] => none

/-- A literal string, compared ASCII-case-insensitively (the header
pattern carries `re.IGNORECASE`). -/
def strCi {α : Type} : List Char → List Char → (List Char → Option α) → Option α
  | [], l, k => k l
  | c :: cs, x :: r, k => if x.toLower = c.toLower then strCi cs r k else none
  | _ :: _, [], _ => none

/-- A literal string, case-sensitive. -/
def strCs {α : Type} : List Char → List Char → (List Char → Option α) → Option α
  | [], l, k => k l
  | c :: cs, x :: r, k => if x = c then strCs cs r k else none
  | _ :: _, [], _ => none

/-- Exactly `n` characters of class `p` (`\d{4}` etc.). -/
def repN {α : Type} : Nat → (Char → Bool) → List Char → (List Char → Option α) → Option α
  | 0, _, l, k => k l
  | n + 1, p, l, k =>
      match l with
      | c :: r => if p c then repN n p r k else none
      | [] => none

/-- The class `[a-zA-Z\s]` of the header pattern. -/
def isAlphaSpace (c : Char) : Bool :=
  (('a' ≤ c && c ≤ 'z') || ('A' ≤ c && c ≤ 'Z')) || isSpacePy c

/-- ASCII `[0-9]` / `\d` (code points 48–57). -/
def isDigitA (c : Char) : Bool := 48 ≤ c.toNat && c.toNat ≤ 57

/-- One attempt of the header pattern
`([0-9]+\.\s+[a-zA-Z\s]+Dairesi).*?(\d{4}\/\d+)\s*E\..*?(\d{4}\/\d+)\s*K\.`
(flags `DOTALL | IGNORECASE`) anchored at the start of `l`; group
captures are recovered from the lengths of the unconsumed suffixes. -/
def tryHeader (l : List Char) : Option (List Char × List Char × List Char) :=
  plusG isDigitA l fun a =>
  litC '.' a fun b =>
  plusG isSpacePy b fun c =>
  plusG isAlphaSpace c fun d =>
  strCi "dairesi".data d fun e =>
    let g1 := l.take (l.length - e.length)
    starLany e fun f =>
    repN 4 isDigitA f fun g =>
    litC '/' g fun h2 =>
    plusG isDigitA h2 fun i =>
      let g2 := f.take (f.length - i.length)
      starG isSpacePy i fun j =>
      strCi "e.".data j fun m =>
      starLany m fun n =>
      repN 4 isDigitA n fun o =>
      litC '/' o fun p2 =>
      plusG isDigitA p2 fun q =>
        let g3 := n.take (n.length - q.length)
        starG isSpacePy q fun s =>
        strCi "k.".data s fun _ =>
        some (g1, g2, g3)

/-- `re.search` for the header pattern: leftmost start position wins. -/
def headerSearch : List Char → Option (List Char × List Char × List Char)
  | [] => tryHeader []
  | c :: r =>
      match tryHeader (c :: r) with
      | some g => some g
      | none => headerSearch r

/-- One attempt of the date pattern `(\d{2}\.\d{2}\.\d{4})\s+tarihinde`
anchored at the start of `l`; returns the group-1 capture. -/
def tryDate (l : List Char) : Option (List Char) :=
  repN 2 isDigitA l fun a =>
  litC '.' a fun b =>
  repN 2 isDigitA b fun c =>
  litC '.' c fun d =>
  repN 4 isDigitA d fun e =>
    let g1 := l.take (l.length - e.length)
    plusG isSpacePy e fun f =>
    strCs "tarihinde".data f fun _ =>
    some g1

/-- `re.search` for the date pattern: leftmost start position wins. -/
def dateSearch : List Char → Option (List Char)
  | [] => tryDate []
  | c :: r =>
      match tryDate (c :: r) with
      | some g => some g
      | none => dateSearch r

/-!
### `Uploader.extract_metadata` — date conversion

`datetime.strptime(date_str, "%d.%m.%Y")` validated against the real
calendar, then `strftime("%Y-%m-%d")` (zero-padded; C-library `%Y`
padding for years below 1000 is platform-dependent and modelled as
padded).
-/

def isLeapYear (y : Nat) : Bool :=
  (y % 4 = 0 && y % 100 ≠ 0) || y % 400 = 0

def daysInMonth (m y : Nat) : Nat :=
  if m = 2 then (if isLeapYear y then 29 else 28)
  else if m = 4 || m = 6 || m = 9 || m = 11 then 30
  else 31

/-- `datetime.strptime(s, "%d.%m.%Y")`: three dot-separated digit groups
(`%d`/`%m` take 1–2 digits, `%Y` up to 4), validated against
`datetime`'s ranges (year 1–9999, real calendar days); `none` models the
`ValueError` the source catches. Returns `(year, month, day)`. -/
def strptimeDMY (s : String) : Option (Nat × Nat × Nat) :=
  match pySplitDot s with
  | [ds, ms, ys] =>
      if ds.data.all isDigitA && ms.data.all isDigitA && ys.data.all isDigitA &&
         decide (1 ≤ ds.length) && decide (ds.length ≤ 2) &&
         decide (1 ≤ ms.length) && decide (ms.length ≤ 2) &&
         decide (1 ≤ ys.length) && decide (ys.length ≤ 4) then
        let d := digitsToNat ds.data
        let m := digitsToNat ms.data
        let y := digitsToNat ys.data
        if 1 ≤ y && 1 ≤ m && m ≤ 12 && 1 ≤ d && d ≤ daysInMonth m y then
          some (y, m, d)
        else none
      else none
  | _ => none

/-- Two-digit zero-padded decimal (for `%m` / `%d`, values < 100). -/
def pad2 (n : Nat) : List Char :=
  [Nat.digitChar (n / 10 % 10), Nat.digitChar (n % 10)]

/-- Four-digit zero-padded decimal (for `%Y`, values ≤ 9999). -/
def pad4 (n : Nat) : List Char :=
  [Nat.digitChar (n / 1000 % 10), Nat.digitChar (n / 100 % 10),
   Nat.digitChar (n / 10 % 10), Nat.digitChar (n % 10)]

/-- `dt_obj.strftime("%Y-%m-%d")`. -/
def dateToIso (y m d : Nat) : String :=
  String.mk (pad4 y ++ '-' :: (pad2 m ++ '-' :: pad2 d))

/-- The four fields `extract_metadata` returns (all `None`-able). -/
structure Extracted where
  daire : Option String := none
  esas_no : Option String := none
  karar_no : Option String := none
  karar_tarihi : Option String := none
deriving DecidableEq, Repr

/-- `Uploader.extract_metadata`: normalise the text, take the first
header-pattern match for chamber/esas/karar (each `.strip()`-ed), and
the first date-pattern match converted to ISO form (a `strptime`
failure leaves the field `None`). -/
def extract_metadata (text : String) : Extracted :=
  let clean := (cleanText text).data
  let hm := headerSearch clean
  let dm := dateSearch clean
  { daire := hm.map fun g => pyStrip (String.mk g.1)
    esas_no := hm.map fun g => pyStrip (String.mk g.2.1)
    karar_no := hm.map fun g => pyStrip (String.mk g.2.2)
    karar_tarihi := dm.bind fun g =>
      (strptimeDMY (String.mk g)).map fun t => dateToIso t.1 t.2.1 t.2.2 }

/-!
### `LocalStorageHandler` (blob store)

The store is a list of named JSON documents, each an array of storage
objects; JSON (de)serialisation round-trips and is left implicit.  The
fresh file name (`batch_<timestamp>_<uuid8>.json`) is an oracle argument.
-/

/-- A storage object as built by the uploader (the blob-side record). -/
structure StObj where
  id : JVal
  daire : JVal := .null
  esasNo : JVal := .null
  kararNo : JVal := .null
  kararTarihi : JVal := .null
  icerik_ham : JVal := .null
  ai_ozet : JVal := .null
  arananKelime : Option JVal := none
deriving DecidableEq, Repr

/-- The filesystem under `local_storage_data/`: locator ↦ stored batch. -/
abbrev Files := List (String × List StObj)

/-- `LocalStorageHandler.upload_batch`: empty input returns the empty
locator without writing; otherwise the batch is written under the fresh
name and that name (the absolute path) is returned as locator. -/
def upload_batch (fresh : String) (batch_data : List StObj) (fs : Files) :
    String × Files :=
  if batch_data.isEmpty then ("", fs)
  else (fresh, fs ++ [(fresh, batch_data)])

/-- `LocalStorageHandler.fetch_full_text`: read and parse the document at
the locator; any I/O or parse failure (here: no such document) yields
`[]`. -/
def fetch_full_text (url : String) (fs : Files) : List StObj :=
  match fs.find? fun p => p.1 = url with
  | some p => p.2
  | none => []

/-!
### Metadata index (`DatabaseHandler` / `LocalDatabaseHandler`)

The `decisions` table is a list of rows (the `created_at` column is not
part of any upsert payload and is omitted).  `SELECT` order is backend
default (unspecified); the model uses the list order of the state.
-/

/-- One row of the `decisions` table (payload columns). -/
structure Row where
  id : Int
  daire : Option String := none
  esas_no : Option String := none
  karar_no : Option String := none
  karar_tarihi : Option String := none
  ozet : Option String := none
  full_text_url : Option String := none
deriving DecidableEq, Repr

/-- One metadata dict as the uploader passes it to `upsert_metadata`
(`.get` on a missing key and an explicit `None` both read as `none`). -/
structure MetaEntry where
  id : Int
  daire : Option String := none
  esas_no : Option String := none
  karar_no : Option String := none
  karar_tarihi : Option String := none
  ozet : Option String := none
  full_text_url : Option String := none
deriving DecidableEq, Repr

/-- The row an entry's field values produce. -/
def rowOfEntry (m : MetaEntry) : Row :=
  { id := m.id, daire := m.daire, esas_no := m.esas_no
    karar_no := m.karar_no, karar_tarihi := m.karar_tarihi
    ozet := m.ozet, full_text_url := m.full_text_url }

/-- Insert-or-fully-replace of one row keyed on `id` (PostgreSQL
`ON CONFLICT (id) DO UPDATE SET` every payload column; SQLite
`INSERT OR REPLACE`). -/
def upsertRow (rows : List Row) (r : Row) : List Row :=
  if rows.any fun x => x.id = r.id then
    rows.map fun x => if x.id = r.id then r else x
  else rows ++ [r]

/-- `DatabaseHandler.upsert_metadata`: empty input is a no-op returning
count 0; otherwise all entries are written in one statement and the
count of entries is returned. -/
def upsert_metadata (rows : List Row) (metadata_list : List MetaEntry) :
    List Row × Nat :=
  if metadata_list.isEmpty then (rows, 0)
  else (metadata_list.foldl (fun s m => upsertRow s (rowOfEntry m)) rows,
        metadata_list.length)

/-- `LocalDatabaseHandler.upsert_metadata`: row-by-row
`INSERT OR REPLACE`; empty input is a no-op returning count 0. -/
def local_upsert_metadata (rows : List Row) (metadata_list : List MetaEntry) :
    List Row × Nat :=
  if metadata_list.isEmpty then (rows, 0)
  else (metadata_list.foldl (fun s m => upsertRow s (rowOfEntry m)) rows,
        metadata_list.length)

/-- The keyword arguments of `search_decisions`; a missing key is
`none`.  A supplied value is only used when Python-truthy (`if
kwargs.get(...)`), i.e. a `some 0` / `some ""` guard is skipped. -/
structure Filters where
  id : Option Int := none
  daire : Option String := none
  esas_no : Option String := none
  karar_no : Option String := none
  keyword : Option String := none
  year : Option String := none
  start_date : Option String := none
  end_date : Option String := none
deriving DecidableEq, Repr

/-- Whether an optional string kwarg is supplied and truthy. -/
def activeS : Option String → Option String
  | some s => if s = "" then none else some s
  | none => none

/-- Whether the `id` kwarg is supplied and truthy (`0` is falsy). -/
def activeI : Option Int → Option Int
  | some n => if n = 0 then none else some n
  | none => none

/-- The WHERE clause `DatabaseHandler.search_decisions` assembles, as a
row predicate (SQL three-valued logic: a comparison on a NULL column
does not select the row).  `daire ILIKE %v%`, `ozet ILIKE %kw%`,
exact `=` on id/esas/karar, and date-range comparisons on
`karar_tarihi` (modelled byte-wise, which on a DATE column rendered in
ISO form coincides with date order). -/
def matchesDb (f : Filters) (r : Row) : Bool :=
  (match activeI f.id with
   | some v => r.id = v
   | none => true) &&
  (match activeS f.daire with
   | some v => (match r.daire with
                | some d => sqlLikeContains d v
                | none => false)
   | none => true) &&
  (match activeS f.esas_no with
   | some v => r.esas_no = some v
   | none => true) &&
  (match activeS f.karar_no with
   | some v => r.karar_no = some v
   | none => true) &&
  (match activeS f.keyword with
   | some v => (match r.ozet with
                | some o => sqlLikeContains o v
                | none => false)
   | none => true) &&
  (match activeS f.year with
   | some y => (match r.karar_tarihi with
                | some t => strLeB (y ++ "-01-01") t && strLeB t (y ++ "-12-31")
                | none => false)
   | none => true) &&
  (match activeS f.start_date with
   | some v => (match r.karar_tarihi with
                | some t => strLeB v t
                | none => false)
   | none => true) &&
  (match activeS f.end_date with
   | some v => (match r.karar_tarihi with
                | some t => strLeB t v
                | none => false)
   | none => true)

/-- `DatabaseHandler.search_decisions`: the assembled query with
`LIMIT 20` (no `ORDER BY`; the model returns state order). -/
def search_decisions (f : Filters) (rows : List Row) : List Row :=
  (rows.filter (matchesDb f)).take 20

/-- SQLite `strftime('%Y', v)` on a TEXT value that is either SQL NULL
or of the spec's stored-date shape (`karar_tarihi`: "ISO date
`YYYY-MM-DD`, nullable"): `some` of the 4-digit year when the 10
characters parse as a date (month 1–12, day 1–31, the checks SQLite's
date parser applies; day overflow such as Feb 30 is normalised within
the same year, so `%Y` is the literal year digits), `none` (SQL NULL)
when they do not.  SQLite's date functions also accept other forms a
TEXT column could in principle hold — Julian-day numeric strings,
`YYYY-MM-DD HH:MM[:SS]` — which are outside this modelled domain;
`C3_amended_search_contract` therefore carries the spec's data-model
constraint on the stored dates as an explicit hypothesis. -/
def yearOf (s : String) : Option String :=
  match s.data with
  | [y1, y2, y3, y4, h1, m1, m2, h2, d1, d2] =>
      if [y1, y2, y3, y4, m1, m2, d1, d2].all isDigitA &&
         h1 = '-' && h2 = '-' &&
         decide (1 ≤ digitsToNat [m1, m2]) && decide (digitsToNat [m1, m2] ≤ 12) &&
         decide (1 ≤ digitsToNat [d1, d2]) && decide (digitsToNat [d1, d2] ≤ 31) then
        some (String.mk [y1, y2, y3, y4])
      else none
  | _ => none

/-- The WHERE clause `LocalDatabaseHandler.search_decisions` assembles.
Differences from the relational variant: `LIKE` (ASCII
case-insensitive) instead of `ILIKE`; the keyword searches `ozet` OR
`daire`; `year` compares `strftime('%Y', karar_tarihi)` to
`str(year)`; there is a `start_date` bound but no `end_date` clause. -/
def local_matches (f : Filters) (r : Row) : Bool :=
  (match activeI f.id with
   | some v => r.id = v
   | none => true) &&
  (match activeS f.daire with
   | some v => (match r.daire with
                | some d => sqlLikeContains d v
                | none => false)
   | none => true) &&
  (match activeS f.esas_no with
   | some v => r.esas_no = some v
   | none => true) &&
  (match activeS f.karar_no with
   | some v => r.karar_no = some v
   | none => true) &&
  (match activeS f.keyword with
   | some v => ((match r.ozet with
                 | some o => sqlLikeContains o v
                 | none => false) ||
                (match r.daire with
                 | some d => sqlLikeContains d v
                 | none => false))
   | none => true) &&
  (match activeS f.year with
   | some y => (match r.karar_tarihi with
                | some t => yearOf t = some y
                | none => false)
   | none => true) &&
  (match activeS f.start_date with
   | some v => (match r.karar_tarihi with
                | some t => strLeB v t
                | none => false)
   | none => true)

/-- `LocalDatabaseHandler.search_decisions`: the assembled query with
`LIMIT 20`. -/
def local_search_decisions (f : Filters) (rows : List Row) : List Row :=
  (rows.filter (local_matches f)).take 20

/-!
### `Uploader` — record normalisation and the batched dual-write

A raw input item is a JSON object; the keys this code reads become
`Option JVal` fields (`none` = key absent, `some .null` = key present
with value `None`).  The source raises `TypeError` when `icerik_ham` or
a summary is a non-string non-`None` value; such inputs are outside the
modelled domain (every theorem and witness below uses string-or-absent
values there).
-/

/-- A raw input record (the keys the uploader reads). -/
structure Rec where
  id : Option JVal := none
  idCap : Option JVal := none -- the `Id` key
  icerik_ham : Option JVal := none
  daire : Option JVal := none
  esasNo : Option JVal := none
  kararNo : Option JVal := none
  kararTarihi : Option JVal := none
  ai_ozet : Option JVal := none
  arananKelime : Option JVal := none
deriving DecidableEq, Repr

/-- `record.get(k)` (default `None`). -/
def getJ (o : Option JVal) : JVal := o.getD .null

/-- `None`-or-string to the Python value it is. -/
def optToJ : Option String → JVal
  | none => .null
  | some s => .str s

/-- The summary truncation both `process_data` and `process_file`
apply before building the index entry:
`if summary and len(summary) > 250: summary = summary[:250] + "..."`. -/
def truncSummary : JVal → JVal
  | .str s => if 250 < s.length then .str (pyTake s 250 ++ "...") else .str s
  | v => v

/-- The index entry both functions build from the resolved id, the
extracted/provided fields and the (truncated) summary, with
`process_data`'s id coercion `int(record_id) if
str(record_id).isdigit() else 0`. -/
def mkMetaData (record_id : JVal) (e : Extracted) (summary : JVal) : MetaEntry :=
  { id := if pyIsDigit record_id.pyStr then jvalToIntDigits record_id else 0
    daire := e.daire, esas_no := e.esas_no, karar_no := e.karar_no
    karar_tarihi := e.karar_tarihi, ozet := summary.toOptStr }

/-- The `extracted` dict of the pre-structured branch of `process_data`
(fields taken from the record as-is; rendered to their SQL values). -/
def extractedOfRec (record : Rec) : Extracted :=
  { daire := (getJ record.daire).toOptStr
    esas_no := (getJ record.esasNo).toOptStr
    karar_no := (getJ record.kararNo).toOptStr
    karar_tarihi := (getJ record.kararTarihi).toOptStr }

/-- One batch element: the blob-side object and the index-side entry. -/
structure BatchItem where
  storage_object : StObj
  metadata : MetaEntry
deriving DecidableEq, Repr

/-- The string content of `icerik_ham` (the source would raise
`TypeError` on a non-string truthy value; modelled domain is strings). -/
def JVal.asStr : JVal → String
  | .str s => s
  | v => v.pyStr

/-- The per-record body of `Uploader.process_data`: `none` means the
record is skipped (`continue`), `some` is the element appended to the
batch.  The record is pre-structured when `icerik_ham`, `daire` and
`esasNo` keys are all present, legacy otherwise. -/
def processRecordData (record : Rec) : Option BatchItem :=
  let record_id := pyOr (getJ record.id) (getJ record.idCap)
  if ¬ record_id.truthy then none
  else if record.icerik_ham.isSome && record.daire.isSome && record.esasNo.isSome then
    let content := (record.icerik_ham.getD (.str ""))
    let extracted := extractedOfRec record
    let summary := record.ai_ozet.getD (.str "")
    let storage : StObj :=
      { id := .str (getJ record.id).pyStr
        daire := getJ record.daire, esasNo := getJ record.esasNo
        kararNo := getJ record.kararNo, kararTarihi := getJ record.kararTarihi
        icerik_ham := content, ai_ozet := summary
        arananKelime := record.arananKelime }
    some { storage_object := storage
           metadata := mkMetaData record_id extracted (truncSummary summary) }
  else
    let content := (record.icerik_ham.getD (.str ""))
    if ¬ content.truthy then none
    else
      let extracted := extract_metadata content.asStr
      let summary := pyOr (getJ record.ai_ozet) (.str (pyTake content.asStr 200))
      let storage : StObj :=
        { id := .str (getJ record.id).pyStr
          daire := optToJ extracted.daire, esasNo := optToJ extracted.esas_no
          kararNo := optToJ extracted.karar_no
          kararTarihi := optToJ extracted.karar_tarihi
          icerik_ham := content, ai_ozet := summary }
      some { storage_object := storage
             metadata := mkMetaData record_id extracted (truncSummary summary) }

/-- A storage backend's `upload_batch` as the uploader calls it: either a
raised exception (`error`) or a returned locator and the updated store. -/
def UploadFn := List StObj → Files → Except String (String × Files)

/-- The combined mutable state the dual-write touches. -/
structure SysSt where
  db : List Row := []
  fs : Files := []
deriving DecidableEq, Repr

/-- `Uploader._upload_and_index`: write the batch's storage objects as
one blob; on an exception or an empty locator, stop without touching the
index; otherwise set `full_text_url` to the locator on every index entry
and upsert them all in one call. -/
def _upload_and_index (upload : UploadFn) (batch : List BatchItem) (st : SysSt) : SysSt :=
  let storage_data := batch.map (·.storage_object)
  match upload storage_data st.fs with
  | .error _ => st
  | .ok (raw_url, fs2) =>
      if raw_url = "" then { st with fs := fs2 }
      else
        let metadata_list := batch.map fun it =>
          { it.metadata with full_text_url := some raw_url }
        { db := (local_upsert_metadata st.db metadata_list).1, fs := fs2 }

/-- The batching loop of `Uploader.process_data` (`batch` is the
accumulator; a full batch of `batchSize` flushes immediately, the
remainder flushes at the end). -/
def process_data_aux (upload : UploadFn) (batchSize : Nat) :
    List Rec → List BatchItem → SysSt → SysSt
  | [], batch, st =>
      if batch.isEmpty then st else _upload_and_index upload batch st
  | r :: rest, batch, st =>
      match processRecordData r with
      | none => process_data_aux upload batchSize rest batch st
      | some item =>
          let batch2 := batch ++ [item]
          if batchSize ≤ batch2.length then
            process_data_aux upload batchSize rest []
              (_upload_and_index upload batch2 st)
          else process_data_aux upload batchSize rest batch2 st

/-- `Uploader.process_data` (`self.BATCH_SIZE` defaults to 100). -/
def process_data (upload : UploadFn) (batchSize : Nat) (data : List Rec)
    (st : SysSt) : SysSt :=
  process_data_aux upload batchSize data [] st

/-- Python `+` on two values that must both be strings (`TypeError`
otherwise, uncaught in `process_file`). -/
def pyConcat (a b : JVal) : Except String JVal :=
  match a, b with
  | .str x, .str y => .ok (.str (x ++ y))
  | _, _ => .error "TypeError"

/-- The date conversion of `process_file`'s pre-structured branch:
`kt.split('.')` reversed into `f"{parts[2]}-{parts[1]}-{parts[0]}"` when
there are exactly 3 parts; a falsy value, a non-3-way split, or the
`AttributeError` of a non-string (swallowed by the bare `except`) all
leave the field `None`.  No zero-padding and no calendar validation. -/
def fileKararTarihi (kt : JVal) : Option String :=
  match kt with
  | .str s =>
      if s = "" then none
      else match pySplitDot s with
           | [p0, p1, p2] => some (p2 ++ "-" ++ p1 ++ "-" ++ p0)
           | _ => none
  | _ => none

/-- The per-record body of `Uploader.process_file`: `.ok none` is a
skipped record, `.error` an uncaught exception (`ValueError` from
`int(record_id)`, `TypeError` from summary concatenation).  The record
is pre-structured when `daire` and `esasNo` keys are present. -/
def processRecordFile (record : Rec) : Except String (Option BatchItem) :=
  let record_id := getJ record.id
  if ¬ record_id.truthy then .ok none
  else if record.daire.isSome && record.esasNo.isSome then
    let extracted : Extracted :=
      { daire := (getJ record.daire).toOptStr
        esas_no := (getJ record.esasNo).toOptStr
        karar_no := (getJ record.kararNo).toOptStr
        karar_tarihi := fileKararTarihi (getJ record.kararTarihi) }
    do
      let s1 ← pyConcat (record.daire.getD (.str "")) (.str " ")
      let summary ← pyConcat s1 (record.kararNo.getD (.str ""))
      let storage : StObj :=
        { id := .str (getJ record.id).pyStr
          daire := getJ record.daire, esasNo := getJ record.esasNo
          kararNo := getJ record.kararNo, kararTarihi := getJ record.kararTarihi
          icerik_ham :=
            record.icerik_ham.getD
              (.str "Full text not available (Metadata only download).")
          ai_ozet := record.ai_ozet.getD (.str "")
          arananKelime := record.arananKelime }
      let idv ← pyInt record_id
      return some
        { storage_object := storage
          metadata :=
            { id := idv, daire := extracted.daire, esas_no := extracted.esas_no
              karar_no := extracted.karar_no
              karar_tarihi := extracted.karar_tarihi
              ozet := (truncSummary summary).toOptStr } }
  else
    let content := record.icerik_ham.getD (.str "")
    if ¬ content.truthy then .ok none
    else
      let extracted := extract_metadata content.asStr
      let summary := pyOr (getJ record.ai_ozet) (.str (pyTake content.asStr 200))
      do
        let storage : StObj :=
          { id := .str (getJ record.id).pyStr
            daire := pyOr (optToJ extracted.daire) (getJ record.daire)
            esasNo := pyOr (optToJ extracted.esas_no) (getJ record.esasNo)
            kararNo := pyOr (optToJ extracted.karar_no) (getJ record.kararNo)
            kararTarihi := optToJ extracted.karar_tarihi
            icerik_ham := content, ai_ozet := summary }
        let idv ← pyInt record_id
        return some
          { storage_object := storage
            metadata :=
              { id := idv, daire := extracted.daire
                esas_no := extracted.esas_no, karar_no := extracted.karar_no
                karar_tarihi := extracted.karar_tarihi
                ozet := (truncSummary summary).toOptStr } }

/-- The batching loop of `Uploader.process_file` (decode errors of the
input file happen before this loop; the model takes the decoded list). -/
def process_file_aux (upload : UploadFn) (batchSize : Nat) :
    List Rec → List BatchItem → SysSt → Except String SysSt
  | [], batch, st =>
      .ok (if batch.isEmpty then st else _upload_and_index upload batch st)
  | r :: rest, batch, st => do
      match ← processRecordFile r with
      | none => process_file_aux upload batchSize rest batch st
      | some item =>
          let batch2 := batch ++ [item]
          if batchSize ≤ batch2.length then
            process_file_aux upload batchSize rest []
              (_upload_and_index upload batch2 st)
          else process_file_aux upload batchSize rest batch2 st

/-- `Uploader.process_file` on the decoded record list. -/
def process_file (upload : UploadFn) (batchSize : Nat) (data : List Rec)
    (st : SysSt) : Except String SysSt :=
  process_file_aux upload batchSize data [] st

/-!
### `Reader.read_decision` (local mode: embedded index + filesystem blobs)

The printed outcomes become an explicit result type; the function is
total, so "never raises" holds by construction.
-/

/-- What `read_decision` reports. -/
inductive ReadOutcome where
  | notFound
  | inconsistent
  | content (s : String)
deriving DecidableEq, Repr

/-- The locator-resolution step of `read_decision`: the
`full_text_url` of the first cache row whose string-normalised id
matches, and — when that is missing or falsy — of the first row of a
fresh `search_decisions(id=decision_id)` query. -/
def resolveTarget (db : List Row) (decision_id : Int)
    (results_cache : Option (List Row)) : Option String :=
  let target1 : Option String :=
    match results_cache with
    | some cache =>
        if cache.isEmpty then none
        else match cache.find? fun r => toString r.id = toString decision_id with
             | some r => r.full_text_url
             | none => none
    | none => none
  let t1truthy : Bool := match target1 with | some s => s ≠ "" | none => false
  if t1truthy then target1
  else
    match local_search_decisions { id := some decision_id } db with
    | r :: _ => r.full_text_url
    | [] => none

/-- `Reader.read_decision`: resolve a locator for the id (cache first,
then a fresh index query); a falsy locator reports not-found; otherwise
fetch the blob at the locator and linear-scan it for the id
(string-normalised), reporting a data-consistency failure if absent. -/
def read_decision (db : List Row) (fs : Files) (decision_id : Int)
    (results_cache : Option (List Row)) : ReadOutcome :=
  match resolveTarget db decision_id results_cache with
  | none => .notFound
  | some url =>
      if url = "" then .notFound
      else
        let batch_data := fetch_full_text url fs
        match batch_data.find? fun item => item.id.pyStr = toString decision_id with
        | some record => .content record.icerik_ham.pyStr
        | none => .inconsistent

/-!
## Theorems

### C4 — `upsert_metadata` fully replaces on a repeated id
-/

theorem find?_upsertRow_of_any (s : List Row) (r : Row)
    (h : s.any (fun x => x.id = r.id) = true) :
    (s.map fun x => if x.id = r.id then r else x).find?
      (fun x => x.id = r.id) = some r := by
  induction s with
  | nil => simp at h
  | cons y t ih =>
    by_cases hy : y.id = r.id
    · simp [List.find?, hy]
    · simp only [List.any_cons, Bool.or_eq_true, decide_eq_true_eq] at h
      rcases h with h | h
      · exact absurd h hy
      · simp only [List.map_cons, if_neg hy, List.find?]
        rw [decide_eq_false hy]
        exact ih (by simpa using h)

theorem find?_append_single (s : List Row) (r : Row)
    (h : s.any (fun x => x.id = r.id) = false) :
    (s ++ [r]).find? (fun x => x.id = r.id) = some r := by
  induction s with
  | nil => simp [List.find?]
  | cons y t ih =>
    simp only [List.any_cons, Bool.or_eq_false_iff, decide_eq_false_iff_not] at h
    simp only [List.cons_append, List.find?, decide_eq_false h.1]
    exact ih (by simp [h.2])

/-- After `upsertRow`, the (first) row with the written id is exactly the
written row. -/
theorem find?_upsertRow (s : List Row) (r : Row) :
    (upsertRow s r).find? (fun x => x.id = r.id) = some r := by
  unfold upsertRow
  by_cases h : s.any (fun x => x.id = r.id) = true
  · rw [if_pos h]; exact find?_upsertRow_of_any s r h
  · rw [if_neg h]
    exact find?_append_single s r (by simpa using h)

/-- C4: in both index implementations, a second `upsert_metadata` call
with the same id fully replaces the prior row with the second call's own
field values (no field-level merge, nulls included), and an empty-list
upsert is a no-op returning count 0. -/
theorem C4_upsert_full_replace (st : List Row) (e1 e2 : MetaEntry)
    (h : e1.id = e2.id) :
    ((upsert_metadata (upsert_metadata st [e1]).1 [e2]).1.find?
        (fun x => x.id = e2.id) = some (rowOfEntry e2) ∧
     (local_upsert_metadata (local_upsert_metadata st [e1]).1 [e2]).1.find?
        (fun x => x.id = e2.id) = some (rowOfEntry e2)) ∧
    upsert_metadata st [] = (st, 0) ∧
    local_upsert_metadata st [] = (st, 0) := by
  have hsingle : ∀ (s : List Row) (e : MetaEntry),
      (upsert_metadata s [e]).1 = upsertRow s (rowOfEntry e) := by
    intro s e; simp [upsert_metadata]
  have hsingle2 : ∀ (s : List Row) (e : MetaEntry),
      (local_upsert_metadata s [e]).1 = upsertRow s (rowOfEntry e) := by
    intro s e; simp [local_upsert_metadata]
  refine ⟨⟨?_, ?_⟩, by simp [upsert_metadata], by simp [local_upsert_metadata]⟩
  · rw [hsingle, hsingle]
    have := find?_upsertRow (upsertRow st (rowOfEntry e1)) (rowOfEntry e2)
    simpa [rowOfEntry] using this
  · rw [hsingle2, hsingle2]
    have := find?_upsertRow (upsertRow st (rowOfEntry e1)) (rowOfEntry e2)
    simpa [rowOfEntry] using this

/-- C4 witness: the spec's scenario 5 — upserting `{id:5, daire:"A"}`
then `{id:5, daire:None, esas_no:"2020/1"}` leaves
`daire = None, esas_no = "2020/1"`. -/
theorem C4_upsert_full_replace_witness :
    (upsert_metadata
        (upsert_metadata [] [{ id := 5, daire := some "A" }]).1
        [{ id := 5, esas_no := some "2020/1" }]).1.find?
      (fun x => x.id = (5 : Int)) =
      some { id := 5, daire := none, esas_no := some "2020/1" } := by
  have := (C4_upsert_full_replace [] { id := 5, daire := some "A" }
    { id := 5, esas_no := some "2020/1" } rfl).1.1
  simpa [rowOfEntry] using this

/-!
### C10 — falsy filter values are treated as absent
-/

/-- The filters with every Python-falsy value replaced by "not
supplied". -/
def defalsify (f : Filters) : Filters :=
  { id := activeI f.id, daire := activeS f.daire, esas_no := activeS f.esas_no
    karar_no := activeS f.karar_no, keyword := activeS f.keyword
    year := activeS f.year, start_date := activeS f.start_date
    end_date := activeS f.end_date }

theorem activeS_idem (o : Option String) : activeS (activeS o) = activeS o := by
  cases o with
  | none => rfl
  | some s => by_cases h : s = "" <;> simp [activeS, h]

theorem activeI_idem (o : Option Int) : activeI (activeI o) = activeI o := by
  cases o with
  | none => rfl
  | some n => by_cases h : n = 0 <;> simp [activeI, h]

/-- C10: in both implementations, a supplied filter whose value is falsy
(`id=0`, or an empty string for the string filters) is silently treated
as absent — the search behaves exactly as if that filter had not been
given. -/
theorem C10_falsy_filters_absent (f : Filters) (st : List Row) :
    search_decisions f st = search_decisions (defalsify f) st ∧
    local_search_decisions f st = local_search_decisions (defalsify f) st := by
  have hdb : matchesDb (defalsify f) = matchesDb f := by
    funext r
    simp [matchesDb, defalsify, activeS_idem, activeI_idem]
  have hl : local_matches (defalsify f) = local_matches f := by
    funext r
    simp [local_matches, defalsify, activeS_idem, activeI_idem]
  constructor
  · simp [search_decisions, hdb]
  · simp [local_search_decisions, hl]

/-!
### C2 — a failed blob write abandons the batch without touching the index
-/

/-- A storage backend whose writes succeed, with fresh names generated
from the store size (standing in for timestamp + uuid suffix). -/
def uploadOk : UploadFn := fun data fs =>
  .ok (upload_batch ("f" ++ toString fs.length) data fs)

/-- A storage backend whose write always raises. -/
def uploadErr : UploadFn := fun _ _ => .error "io"

/-- A storage backend that raises exactly on the batch containing the
storage object with id `"1"` (so: first batch fails, later ones
succeed). -/
def uploadErrOn1 : UploadFn := fun data fs =>
  if data.any fun o => o.id = .str "1" then .error "io"
  else .ok (upload_batch ("f" ++ toString fs.length) data fs)

/-- A pre-structured record with id 1 (first batch of the C2 scenario). -/
def recB1 : Rec :=
  { id := some (.str "1"), icerik_ham := some (.str "x")
    daire := some (.str "D1"), esasNo := some (.str "E1") }

/-- A pre-structured record with id 2 (second batch of the C2 scenario). -/
def recB2 : Rec :=
  { id := some (.str "2"), icerik_ham := some (.str "y")
    daire := some (.str "D2"), esasNo := some (.str "E2") }

/-- C2: if the blob write for a batch raises or returns an empty
locator, `_upload_and_index` leaves the metadata index unchanged (the
batch is abandoned, nothing partial is written); and processing
continues with the next batch — in the concrete two-batch run whose
first upload fails, the final state holds exactly the second batch's
row and blob, nothing of the first. -/
theorem C2_failed_upload_no_index_write (upload : UploadFn)
    (batch : List BatchItem) (st : SysSt)
    (h : (∃ e, upload (batch.map (·.storage_object)) st.fs = .error e) ∨
         (∃ fs2, upload (batch.map (·.storage_object)) st.fs = .ok ("", fs2))) :
    (_upload_and_index upload batch st).db = st.db ∧
    process_data uploadErrOn1 1 [recB1, recB2] {} =
      { db := [{ id := 2, daire := some "D2", esas_no := some "E2"
                 ozet := some "", full_text_url := some "f0" }]
        fs := [("f0",
          [{ id := .str "2", daire := .str "D2", esasNo := .str "E2"
             kararNo := .null, kararTarihi := .null
             icerik_ham := .str "y", ai_ozet := .str "" }])] } := by
  constructor
  · rcases h with ⟨e, he⟩ | ⟨fs2, hok⟩
    · simp [_upload_and_index, he]
    · simp [_upload_and_index, hok]
  · rfl

/-- C2 witness: the general part applied to the always-raising backend
on the concrete first batch of the scenario. -/
theorem C2_failed_upload_no_index_write_witness :
    (_upload_and_index uploadErr
        [{ storage_object := { id := .str "1" }, metadata := { id := 1 } }]
        {}).db = ([] : List Row) :=
  (C2_failed_upload_no_index_write uploadErr
    [{ storage_object := { id := .str "1" }, metadata := { id := 1 } }]
    {} (Or.inl ⟨"io", rfl⟩)).1

/-!
### C5 — handling of missing and non-numeric ids
-/

/-- A legacy record whose id is present but not numeric. -/
def recNonNum : Rec := { id := some (.str "abc"), icerik_ham := some (.str "x") }

/-- C5 counterexample: a record with the non-numeric id `"abc"` is not
dropped — `process_data` writes a blob object (id `"abc"`) and an index
row (id 0) for it. -/
theorem C5_counterexample :
    process_data uploadOk 100 [recNonNum] {} =
      { db := [{ id := 0, ozet := some "x", full_text_url := some "f0" }]
        fs := [("f0",
          [{ id := .str "abc", icerik_ham := .str "x", ai_ozet := .str "x" }])] } := by
  decide

/-- C5 amended: a record whose id is missing or falsy is silently
skipped before any write, in both `process_data` and `process_file`;
but a present non-numeric id is not dropped — `process_data` writes the
record under index id 0, and `process_file` raises `ValueError`. -/
theorem C5_amended_id_handling :
    (∀ rec : Rec, (pyOr (getJ rec.id) (getJ rec.idCap)).truthy = false →
       processRecordData rec = none) ∧
    (∀ rec : Rec, (getJ rec.id).truthy = false →
       processRecordFile rec = .ok none) ∧
    (processRecordData recNonNum).map (fun it => it.metadata.id) = some 0 ∧
    processRecordFile recNonNum = .error "ValueError" := by
  refine ⟨?_, ?_, by decide, by decide⟩
  · intro rec h
    simp [processRecordData, h]
  · intro rec h
    simp [processRecordFile, h]

/-- C5 witness: a record with no id at all is skipped by both loops. -/
theorem C5_amended_id_handling_witness :
    processRecordData {} = none ∧ processRecordFile {} = .ok none :=
  ⟨C5_amended_id_handling.1 {} rfl, C5_amended_id_handling.2.1 {} rfl⟩

/-!
### C7 — summary truncation
-/

/-- A 251-character summary. -/
def s251 : String := String.mk (List.replicate 251 'a')

/-- A pre-structured record whose `ai_ozet` is 251 characters long. -/
def recOzet : Rec :=
  { id := some (.str "1"), icerik_ham := some (.str "x")
    daire := some (.str "D"), esasNo := some (.str "E")
    ai_ozet := some (.str s251) }

/-- C7 counterexample: a 251-character source summary is stored as 253
characters (250 kept plus the 3-character ellipsis marker), so the
stored summary exceeds the claimed 250-character bound. -/
theorem C7_counterexample :
    (process_data uploadOk 100 [recOzet] {}).db.map
        (fun r => (r.ozet.getD "").length) = [253] := by
  decide

theorem except_bind_error {α β : Type} (e : String)
    (f : α → Except String β) : (Except.error e >>= f) = Except.error e := rfl

theorem except_bind_ok {α β : Type} (v : α)
    (f : α → Except String β) : (Except.ok v >>= f) = f v := rfl

theorem except_map_error {α β : Type} (e : String) (f : α → β) :
    (f <$> (Except.error e : Except String α)) = Except.error e := rfl

theorem except_map_ok {α β : Type} (v : α) (f : α → β) :
    (f <$> (Except.ok v : Except String α)) = Except.ok (f v) := rfl

theorem except_pure_eq {α : Type} (v : α) :
    (pure v : Except String α) = Except.ok v := rfl

/-- Every index entry `process_data` builds stores the truncation of
its source summary. -/
theorem processRecordData_ozet (rec : Rec) (item : BatchItem)
    (h : processRecordData rec = some item) :
    ∃ v, item.metadata.ozet = (truncSummary v).toOptStr := by
  by_cases h1 : (pyOr (getJ rec.id) (getJ rec.idCap)).truthy
  · by_cases h2 : (rec.icerik_ham.isSome && rec.daire.isSome && rec.esasNo.isSome) = true
    · simp only [processRecordData, h1, h2, not_true, if_false, if_true,
        Bool.not_eq_true, reduceIte, Option.some.injEq] at h
      exact ⟨rec.ai_ozet.getD (.str ""), by subst h; rfl⟩
    · by_cases h3 : (rec.icerik_ham.getD (JVal.str "")).truthy
      · simp only [processRecordData, h1, h2, h3, not_true, not_false_iff,
          Bool.not_eq_true, Bool.false_eq_true, reduceIte,
          Option.some.injEq] at h
        exact ⟨pyOr (getJ rec.ai_ozet)
          (.str (pyTake ((rec.icerik_ham.getD (.str ""))).asStr 200)),
          by subst h; rfl⟩
      · simp [processRecordData, h1, h2, h3] at h
  · simp [processRecordData, h1] at h

/-- Every index entry `process_file` builds stores the truncation of
its source summary. -/
theorem processRecordFile_ozet (rec : Rec) (item : BatchItem)
    (h : processRecordFile rec = .ok (some item)) :
    ∃ v, item.metadata.ozet = (truncSummary v).toOptStr := by
  by_cases h1 : (getJ rec.id).truthy
  · by_cases h2 : (rec.daire.isSome && rec.esasNo.isSome) = true
    · simp only [processRecordFile, h1, h2, not_true, Bool.not_eq_true,
        reduceIte] at h
      rcases hc1 : pyConcat (rec.daire.getD (.str "")) (.str " ") with e1 | v1
      · simp only [hc1, except_bind_error] at h
        cases h
      · simp only [hc1, except_bind_ok] at h
        rcases hc2 : pyConcat v1 (rec.kararNo.getD (.str "")) with e2 | v2
        · simp only [hc2, except_bind_error] at h
          cases h
        · simp only [hc2, except_bind_ok] at h
          rcases hc3 : pyInt (getJ rec.id) with e3 | v3
          · simp only [hc3, except_bind_error, except_map_error] at h
            cases h
          · simp only [hc3, except_bind_ok, except_map_ok, except_pure_eq,
              Except.ok.injEq, Option.some.injEq] at h
            exact ⟨v2, by subst h; rfl⟩
    · by_cases h3 : (rec.icerik_ham.getD (JVal.str "")).truthy
      · simp only [processRecordFile, h1, h2, h3, not_true, not_false_iff,
          Bool.not_eq_true, Bool.false_eq_true, reduceIte] at h
        rcases hc3 : pyInt (getJ rec.id) with e3 | v3
        · simp only [hc3, except_bind_error, except_map_error] at h
          cases h
        · simp only [hc3, except_bind_ok, except_map_ok, except_pure_eq,
            Except.ok.injEq, Option.some.injEq] at h
          exact ⟨pyOr (getJ rec.ai_ozet)
            (.str (pyTake ((rec.icerik_ham.getD (.str ""))).asStr 200)),
            by subst h; rfl⟩
      · simp [processRecordFile, h1, h2, h3] at h
  · simp [processRecordFile, h1] at h

/-- C7 amended: the stored `ozet` is the source summary unchanged when
it has at most 250 characters, and otherwise its first 250 characters
with `"..."` appended — 253 characters in total, not 250; every index
entry either pipeline produces carries exactly such a truncation of its
source summary. -/
theorem C7_amended_truncation :
    (∀ s : String,
       (s.length ≤ 250 → truncSummary (.str s) = .str s) ∧
       (250 < s.length →
          truncSummary (.str s) = .str (pyTake s 250 ++ "...") ∧
          (pyTake s 250 ++ "...").length = 253)) ∧
    (∀ rec item, processRecordData rec = some item →
       ∃ v, item.metadata.ozet = (truncSummary v).toOptStr) ∧
    (∀ rec item, processRecordFile rec = .ok (some item) →
       ∃ v, item.metadata.ozet = (truncSummary v).toOptStr) := by
  refine ⟨?_, ?_, ?_⟩
  · intro s
    constructor
    · intro h
      simp [truncSummary, Nat.not_lt.mpr h]
    · intro h
      refine ⟨by simp [truncSummary, h], ?_⟩
      show (pyTake s 250 ++ "...").length = 253
      rw [String.length_append]
      show (s.data.take 250).length + 3 = 253
      rw [List.length_take]
      have hs : s.length = s.data.length := rfl
      omega
  · intro rec item h
    exact processRecordData_ozet rec item h
  · intro rec item h
    exact processRecordFile_ozet rec item h

/-- C7 witness: the truncation characterisation applied to the concrete
251-character summary. -/
theorem C7_amended_truncation_witness :
    truncSummary (.str s251) = .str (pyTake s251 250 ++ "...") ∧
    (pyTake s251 250 ++ "...").length = 253 :=
  (C7_amended_truncation.1 s251).2 (by decide)

/-!
### C8 — `karar_tarihi` format
-/

/-- An ISO date string of the form `YYYY-MM-DD` (four digits, hyphen,
two digits, hyphen, two digits). -/
def isIsoDate (s : String) : Bool :=
  match s.data with
  | [y1, y2, y3, y4, h1, m1, m2, h2, d1, d2] =>
      [y1, y2, y3, y4, m1, m2, d1, d2].all isDigitA && h1 = '-' && h2 = '-'
  | _ => false

theorem isDigitA_digitChar_mod (k : Nat) :
    isDigitA (Nat.digitChar (k % 10)) = true := by
  have hk : k % 10 < 10 := Nat.mod_lt _ (by decide)
  set m := k % 10 with hm
  interval_cases m <;> decide

/-- `strftime("%Y-%m-%d")` output is always of ISO form. -/
theorem isIsoDate_dateToIso (y m d : Nat) :
    isIsoDate (dateToIso y m d) = true := by
  simp [isIsoDate, dateToIso, pad4, pad2, isDigitA_digitChar_mod]

/-- The date field `extract_metadata` yields is `None` or ISO-formatted. -/
theorem extract_metadata_kt_iso (text : String) :
    (extract_metadata text).karar_tarihi = none ∨
    ∃ s, (extract_metadata text).karar_tarihi = some s ∧ isIsoDate s = true := by
  simp only [extract_metadata]
  rcases hd : dateSearch ((cleanText text).data) with _ | g
  · left; simp [hd]
  · rcases hp : strptimeDMY (String.mk g) with _ | t
    · left; simp [hd, hp]
    · right
      exact ⟨dateToIso t.1 t.2.1 t.2.2, by simp [hd, hp],
        isIsoDate_dateToIso t.1 t.2.1 t.2.2⟩

/-- A pre-structured record carrying the upstream dotted date format. -/
def recKT : Rec :=
  { id := some (.str "1"), icerik_ham := some (.str "x")
    daire := some (.str "D"), esasNo := some (.str "E")
    kararTarihi := some (.str "28.10.2009") }

/-- The batch element `process_data` builds from `recKT`. -/
def itemKT : BatchItem :=
  { storage_object :=
      { id := .str "1", daire := .str "D", esasNo := .str "E"
        kararNo := .null, kararTarihi := .str "28.10.2009"
        icerik_ham := .str "x", ai_ozet := .str "" }
    metadata :=
      { id := 1, daire := some "D", esas_no := some "E"
        karar_tarihi := some "28.10.2009", ozet := some "" } }

/-- C8 counterexample: a pre-structured record whose `kararTarihi` is
the upstream dotted form `"28.10.2009"` produces an index entry whose
`karar_tarihi` is that very string, which is not of ISO `YYYY-MM-DD`
form. -/
theorem C8_counterexample :
    (process_data uploadOk 100 [recKT] {}).db.map (fun r => r.karar_tarihi) =
      [some "28.10.2009"] ∧
    isIsoDate "28.10.2009" = false := ⟨by decide, by decide⟩

theorem processRecordData_kt_pre (rec : Rec) (item : BatchItem)
    (h : processRecordData rec = some item)
    (hs : (rec.icerik_ham.isSome && rec.daire.isSome && rec.esasNo.isSome) = true) :
    item.metadata.karar_tarihi = (getJ rec.kararTarihi).toOptStr := by
  by_cases h1 : (pyOr (getJ rec.id) (getJ rec.idCap)).truthy
  · simp only [processRecordData, h1, hs, not_true, Bool.not_eq_true,
      reduceIte, Option.some.injEq] at h
    subst h; rfl
  · simp [processRecordData, h1] at h

theorem processRecordData_kt_legacy (rec : Rec) (item : BatchItem)
    (h : processRecordData rec = some item)
    (hs : (rec.icerik_ham.isSome && rec.daire.isSome && rec.esasNo.isSome) = false) :
    item.metadata.karar_tarihi =
      (extract_metadata ((rec.icerik_ham.getD (.str "")).asStr)).karar_tarihi := by
  by_cases h1 : (pyOr (getJ rec.id) (getJ rec.idCap)).truthy
  · by_cases h3 : (rec.icerik_ham.getD (JVal.str "")).truthy
    · simp only [processRecordData, h1, hs, h3, not_true, not_false_iff,
        Bool.not_eq_true, Bool.false_eq_true, reduceIte,
        Option.some.injEq] at h
      subst h; rfl
    · simp [processRecordData, h1, hs, h3] at h
  · simp [processRecordData, h1] at h

theorem processRecordFile_kt_pre (rec : Rec) (item : BatchItem)
    (h : processRecordFile rec = .ok (some item))
    (hs : (rec.daire.isSome && rec.esasNo.isSome) = true) :
    item.metadata.karar_tarihi = fileKararTarihi (getJ rec.kararTarihi) := by
  by_cases h1 : (getJ rec.id).truthy
  · simp only [processRecordFile, h1, hs, not_true, Bool.not_eq_true,
      reduceIte] at h
    rcases hc1 : pyConcat (rec.daire.getD (.str "")) (.str " ") with e1 | v1
    · simp only [hc1, except_bind_error] at h; cases h
    · simp only [hc1, except_bind_ok] at h
      rcases hc2 : pyConcat v1 (rec.kararNo.getD (.str "")) with e2 | v2
      · simp only [hc2, except_bind_error] at h; cases h
      · simp only [hc2, except_bind_ok] at h
        rcases hc3 : pyInt (getJ rec.id) with e3 | v3
        · simp only [hc3, except_bind_error, except_map_error] at h; cases h
        · simp only [hc3, except_bind_ok, except_map_ok, except_pure_eq,
            Except.ok.injEq, Option.some.injEq] at h
          subst h; rfl
  · simp [processRecordFile, h1] at h

theorem processRecordFile_kt_legacy (rec : Rec) (item : BatchItem)
    (h : processRecordFile rec = .ok (some item))
    (hs : (rec.daire.isSome && rec.esasNo.isSome) = false) :
    item.metadata.karar_tarihi =
      (extract_metadata ((rec.icerik_ham.getD (.str "")).asStr)).karar_tarihi := by
  by_cases h1 : (getJ rec.id).truthy
  · by_cases h3 : (rec.icerik_ham.getD (JVal.str "")).truthy
    · simp only [processRecordFile, h1, hs, h3, not_true, not_false_iff,
        Bool.not_eq_true, Bool.false_eq_true, reduceIte] at h
      rcases hc3 : pyInt (getJ rec.id) with e3 | v3
      · simp only [hc3, except_bind_error, except_map_error] at h; cases h
      · simp only [hc3, except_bind_ok, except_map_ok, except_pure_eq,
          Except.ok.injEq, Option.some.injEq] at h
        subst h; rfl
    · simp [processRecordFile, h1, hs, h3] at h
  · simp [processRecordFile, h1] at h

/-- C8 amended: index entries from the legacy shape (both loops) carry a
`karar_tarihi` that is null or ISO `YYYY-MM-DD`; the pre-structured
shape does not guarantee ISO form — `process_data` copies the source
`kararTarihi` value verbatim, and `process_file` joins the reversed
dot-separated parts without padding or validation
(`fileKararTarihi`). -/
theorem C8_amended_karar_tarihi_format :
    (∀ text, (extract_metadata text).karar_tarihi = none ∨
       ∃ s, (extract_metadata text).karar_tarihi = some s ∧ isIsoDate s = true) ∧
    (∀ rec item, processRecordData rec = some item →
       (rec.icerik_ham.isSome && rec.daire.isSome && rec.esasNo.isSome) = false →
       item.metadata.karar_tarihi = none ∨
       ∃ s, item.metadata.karar_tarihi = some s ∧ isIsoDate s = true) ∧
    (∀ rec item, processRecordData rec = some item →
       (rec.icerik_ham.isSome && rec.daire.isSome && rec.esasNo.isSome) = true →
       item.metadata.karar_tarihi = (getJ rec.kararTarihi).toOptStr) ∧
    (∀ rec item, processRecordFile rec = .ok (some item) →
       (rec.daire.isSome && rec.esasNo.isSome) = true →
       item.metadata.karar_tarihi = fileKararTarihi (getJ rec.kararTarihi)) ∧
    (∀ rec item, processRecordFile rec = .ok (some item) →
       (rec.daire.isSome && rec.esasNo.isSome) = false →
       item.metadata.karar_tarihi = none ∨
       ∃ s, item.metadata.karar_tarihi = some s ∧ isIsoDate s = true) := by
  refine ⟨extract_metadata_kt_iso, ?_, ?_, ?_, ?_⟩
  · intro rec item h hs
    rw [processRecordData_kt_legacy rec item h hs]
    exact extract_metadata_kt_iso _
  · intro rec item h hs
    exact processRecordData_kt_pre rec item h hs
  · intro rec item h hs
    exact processRecordFile_kt_pre rec item h hs
  · intro rec item h hs
    rw [processRecordFile_kt_legacy rec item h hs]
    exact extract_metadata_kt_iso _

/-- C8 witness: the pre-structured conjunct applied to the concrete
record with the dotted source date. -/
theorem C8_amended_karar_tarihi_format_witness :
    itemKT.metadata.karar_tarihi = (getJ recKT.kararTarihi).toOptStr :=
  C8_amended_karar_tarihi_format.2.2.1 recKT itemKT (by decide) (by decide)

/-!
### C1 — the locator-consistency invariant (code bug)
-/

/-- A record carrying its id only under the `Id` key (which
`process_data` accepts for the index entry, but not for the storage
object). -/
def recIdCap : Rec := { idCap := some (.str "7"), icerik_ham := some (.str "x") }

/-- C1: the dual-write on a batch built from an `Id`-keyed record
breaks the locator invariant — the index gains row id 7 pointing at
locator `"f0"`, but the blob stored at `"f0"` contains only an object
whose id is the string `"None"` (the storage object reads
`record.get("id")` instead of the id-or-Id fallback), so no object in
the fetched batch matches id 7. -/
theorem C1_locator_invariant_code_bug :
    (process_data uploadOk 100 [recIdCap] {}).db =
      [{ id := 7, ozet := some "x", full_text_url := some "f0" }] ∧
    fetch_full_text "f0" (process_data uploadOk 100 [recIdCap] {}).fs =
      [{ id := .str "None", icerik_ham := .str "x", ai_ozet := .str "x" }] ∧
    (fetch_full_text "f0" (process_data uploadOk 100 [recIdCap] {}).fs).all
      (fun o => o.id.pyStr ≠ toString (7 : Int)) = true := by
  refine ⟨by decide, by decide, by decide⟩

/-!
### C6 — `read_decision` failure behaviour
-/

/-- An index row for id 5 with a resolvable locator. -/
def rowC6 : Row := { id := 5, full_text_url := some "L" }

/-- A blob store holding the batch for `rowC6`. -/
def fsC6 : Files := [("L", [{ id := .str "5", icerik_ham := .str "body" }])]

/-- C6 counterexample: for decision id 0, no index row (and no cache
row) yields a locator for the id, yet `read_decision` does not report
"not found" — id 0 is a falsy filter, so the fresh query returns
arbitrary rows, the first row's locator is fetched, and a
data-consistency failure is reported instead. -/
theorem C6_counterexample :
    ([rowC6].all fun r => r.id ≠ (0 : Int)) = true ∧
    read_decision [rowC6] fsC6 0 none = .inconsistent := ⟨by decide, by decide⟩

/-- C6 amended: `read_decision` is total (it never raises, by
construction); when the resolution step yields no locator or a falsy
one it reports not-found; when it yields a locator whose fetched blob
(empty for an invalid locator) has no object with the requested id it
reports a data-consistency failure; and for every id other than 0,
"no index row for the id carries a truthy locator" (with no cache
supplied) does imply not-found. -/
theorem C6_amended_read_decision (db : List Row) (fs : Files) (d : Int)
    (cache : Option (List Row)) :
    (resolveTarget db d cache = none → read_decision db fs d cache = .notFound) ∧
    (resolveTarget db d cache = some "" → read_decision db fs d cache = .notFound) ∧
    (∀ url, resolveTarget db d cache = some url → url ≠ "" →
       (∀ item ∈ fetch_full_text url fs, item.id.pyStr ≠ toString d) →
       read_decision db fs d cache = .inconsistent) ∧
    (d ≠ 0 → cache = none →
       (∀ r ∈ db, r.id = d → r.full_text_url = none ∨ r.full_text_url = some "") →
       read_decision db fs d cache = .notFound) := by
  have p1 : resolveTarget db d cache = none →
      read_decision db fs d cache = .notFound := by
    intro h; simp [read_decision, h]
  have p2 : resolveTarget db d cache = some "" →
      read_decision db fs d cache = .notFound := by
    intro h; simp [read_decision, h]
  have p3 : ∀ url, resolveTarget db d cache = some url → url ≠ "" →
      (∀ item ∈ fetch_full_text url fs, item.id.pyStr ≠ toString d) →
      read_decision db fs d cache = .inconsistent := by
    intro url h hne hall
    have hfind : (fetch_full_text url fs).find?
        (fun item => item.id.pyStr = toString d) = none := by
      rw [List.find?_eq_none]
      intro item hmem
      simpa using hall item hmem
    simp [read_decision, h, hne, hfind]
  refine ⟨p1, p2, p3, ?_⟩
  intro hd hc hall
  subst hc
  rcases hq : local_search_decisions { id := some d } db with _ | ⟨r, rest⟩
  · exact p1 (by simp [resolveTarget, hq])
  · have hr : r ∈ local_search_decisions { id := some d } db := by
      rw [hq]; exact List.mem_cons_self r rest
    have hr2 : r ∈ (db.filter (local_matches { id := some d })) :=
      List.mem_of_mem_take hr
    have hdb2 := List.mem_filter.mp hr2
    have hid : r.id = d := by
      have := hdb2.2
      simp [local_matches, activeI, activeS, hd] at this
      exact this
    have hres : resolveTarget db d none = r.full_text_url := by
      simp [resolveTarget, hq]
    rcases hall r hdb2.1 hid with hu | hu
    · exact p1 (by rw [hres, hu])
    · exact p2 (by rw [hres, hu])

/-- C6 witness: a missing id reports not-found, and a locator whose
blob is unreadable (fetch yields the empty list) reports the
data-consistency failure, without raising. -/
theorem C6_amended_read_decision_witness :
    read_decision [] [] 3 none = .notFound ∧
    read_decision [rowC6] [] 5 none = .inconsistent :=
  ⟨(C6_amended_read_decision [] [] 3 none).2.2.2 (by decide) rfl (by decide),
   (C6_amended_read_decision [rowC6] [] 5 none).2.2.1 "L" (by decide)
     (by decide) (by decide)⟩

/-!
### C3 — `search_decisions` result cap and filter satisfaction
-/

theorem char_eq_of_toNat_eq {a b : Char} (h : a.toNat = b.toNat) : a = b :=
  Char.ext (UInt32.ext h)

theorem strLtB_cons_self (c : Char) (as bs : List Char) :
    strLtB (c :: as) (c :: bs) = strLtB as bs := by
  simp [strLtB]

theorem strLtB_cons_lt {a b : Char} (h : a.toNat < b.toNat)
    (as bs : List Char) : strLtB (a :: as) (b :: bs) = true := by
  simp [strLtB, h]

theorem strLtB_cons_eqv {a b : Char} (h : a.toNat = b.toNat)
    (as bs : List Char) : strLtB (a :: as) (b :: bs) = strLtB as bs := by
  simp [strLtB, h]

theorem digitsToNat_two (a b : Char) :
    digitsToNat [a, b] = (a.toNat - 48) * 10 + (b.toNat - 48) := by
  simp [digitsToNat]

/-- A stored date accepted by the embedded year filter lies, in the
byte-wise order used by both stores, within the spec's inclusive range
`[Y-01-01, Y-12-31]`. -/
theorem yearOf_range {s y : String} (h : yearOf s = some y) :
    strLeB (y ++ "-01-01") s = true ∧ strLeB s (y ++ "-12-31") = true := by
  unfold yearOf at h
  split at h
  case h_2 => cases h
  case h_1 y1 y2 y3 y4 h1c m1 m2 h2c d1 d2 heq =>
    split at h
    case isFalse => cases h
    case isTrue hcond =>
      cases h
      simp only [Bool.and_eq_true, List.all_cons, List.all_nil, Bool.and_true,
        isDigitA, decide_eq_true_eq] at hcond
      obtain ⟨⟨⟨⟨⟨⟨hdig, hh1⟩, hh2⟩, hm1⟩, hm12⟩, hd1⟩, hd31⟩ := hcond
      obtain ⟨⟨h1a, h1b⟩, ⟨h2a, h2b⟩, ⟨h3a, h3b⟩, ⟨h4a, h4b⟩,
        ⟨hma, hmb⟩, ⟨hmc, hmd⟩, ⟨hda, hdb⟩, ⟨hdc, hdd⟩⟩ := hdig
      subst hh1; subst hh2
      rw [digitsToNat_two] at hm1 hm12 hd1 hd31
      have h0 : ('0' : Char).toNat = 48 := rfl
      have h1 : ('1' : Char).toNat = 49 := rfl
      have h2 : ('2' : Char).toNat = 50 := rfl
      have h3 : ('3' : Char).toNat = 51 := rfl
      have hsdata : s = String.mk [y1, y2, y3, y4, '-', m1, m2, '-', d1, d2] := by
        rw [← heq]
      have hlow : (String.mk [y1, y2, y3, y4] ++ ("-01-01" : String)).data
          = [y1, y2, y3, y4, '-', '0', '1', '-', '0', '1'] := by
        show [y1, y2, y3, y4] ++ ("-01-01" : String).data = _
        rw [show ("-01-01" : String).data = ['-', '0', '1', '-', '0', '1'] by decide]
        rfl
      have hhigh : (String.mk [y1, y2, y3, y4] ++ ("-12-31" : String)).data
          = [y1, y2, y3, y4, '-', '1', '2', '-', '3', '1'] := by
        show [y1, y2, y3, y4] ++ ("-12-31" : String).data = _
        rw [show ("-12-31" : String).data = ['-', '1', '2', '-', '3', '1'] by decide]
        rfl
      constructor
      · -- lower bound: Y-01-01 <= s
        rw [strLeB, Bool.or_eq_true]
        rcases Nat.eq_or_lt_of_le hma with hv1 | hv1
        case inr =>
          left
          rw [hlow, hsdata]
          simp only [strLtB_cons_self]
          exact strLtB_cons_lt (by omega) _ _
        rcases Nat.eq_or_lt_of_le (show 49 ≤ m2.toNat by omega) with hv2 | hv2
        case inr =>
          left
          rw [hlow, hsdata]
          simp only [strLtB_cons_self]
          rw [strLtB_cons_eqv (by omega)]
          exact strLtB_cons_lt (by omega) _ _
        rcases Nat.eq_or_lt_of_le hda with hv3 | hv3
        case inr =>
          left
          rw [hlow, hsdata]
          simp only [strLtB_cons_self]
          rw [strLtB_cons_eqv (by omega), strLtB_cons_eqv (by omega),
            strLtB_cons_self]
          exact strLtB_cons_lt (by omega) _ _
        rcases Nat.eq_or_lt_of_le (show 49 ≤ d2.toNat by omega) with hv4 | hv4
        case inr =>
          left
          rw [hlow, hsdata]
          simp only [strLtB_cons_self]
          rw [strLtB_cons_eqv (by omega), strLtB_cons_eqv (by omega),
            strLtB_cons_self, strLtB_cons_eqv (by omega)]
          exact strLtB_cons_lt (by omega) _ _
        · -- all equal: the strings coincide
          right
          have em1 : m1 = '0' := char_eq_of_toNat_eq (by omega)
          have em2 : m2 = '1' := char_eq_of_toNat_eq (by omega)
          have ed1 : d1 = '0' := char_eq_of_toNat_eq (by omega)
          have ed2 : d2 = '1' := char_eq_of_toNat_eq (by omega)
          have hstr : String.mk [y1, y2, y3, y4] ++ ("-01-01" : String) = s := by
            calc String.mk [y1, y2, y3, y4] ++ ("-01-01" : String)
                = String.mk ((String.mk [y1, y2, y3, y4] ++ ("-01-01" : String)).data) := rfl
              _ = String.mk [y1, y2, y3, y4, '-', '0', '1', '-', '0', '1'] := by rw [hlow]
              _ = String.mk [y1, y2, y3, y4, '-', m1, m2, '-', d1, d2] := by
                    rw [em1, em2, ed1, ed2]
              _ = s := by rw [hsdata]
          rw [hstr]
          simp
      · -- upper bound: s <= Y-12-31
        rw [strLeB, Bool.or_eq_true]
        rcases Nat.eq_or_lt_of_le (show m1.toNat ≤ 49 by omega) with hv1 | hv1
        case inr =>
          left
          rw [hhigh, hsdata]
          simp only [strLtB_cons_self]
          exact strLtB_cons_lt (by omega) _ _
        rcases Nat.eq_or_lt_of_le (show m2.toNat ≤ 50 by omega) with hv2 | hv2
        case inr =>
          left
          rw [hhigh, hsdata]
          simp only [strLtB_cons_self]
          rw [strLtB_cons_eqv (by omega)]
          exact strLtB_cons_lt (by omega) _ _
        rcases Nat.eq_or_lt_of_le (show d1.toNat ≤ 51 by omega) with hv3 | hv3
        case inr =>
          left
          rw [hhigh, hsdata]
          simp only [strLtB_cons_self]
          rw [strLtB_cons_eqv (by omega), strLtB_cons_eqv (by omega),
            strLtB_cons_self]
          exact strLtB_cons_lt (by omega) _ _
        rcases Nat.eq_or_lt_of_le (show d2.toNat ≤ 49 by omega) with hv4 | hv4
        case inr =>
          left
          rw [hhigh, hsdata]
          simp only [strLtB_cons_self]
          rw [strLtB_cons_eqv (by omega), strLtB_cons_eqv (by omega),
            strLtB_cons_self, strLtB_cons_eqv (by omega)]
          exact strLtB_cons_lt (by omega) _ _
        · right
          have em1 : m1 = '1' := char_eq_of_toNat_eq (by omega)
          have em2 : m2 = '2' := char_eq_of_toNat_eq (by omega)
          have ed1 : d1 = '3' := char_eq_of_toNat_eq (by omega)
          have ed2 : d2 = '1' := char_eq_of_toNat_eq (by omega)
          have hstr : s = String.mk [y1, y2, y3, y4] ++ ("-12-31" : String) := by
            calc s = String.mk [y1, y2, y3, y4, '-', m1, m2, '-', d1, d2] := hsdata
              _ = String.mk [y1, y2, y3, y4, '-', '1', '2', '-', '3', '1'] := by
                    rw [em1, em2, ed1, ed2]
              _ = String.mk ((String.mk [y1, y2, y3, y4] ++ ("-12-31" : String)).data) := by
                    rw [hhigh]
              _ = String.mk [y1, y2, y3, y4] ++ ("-12-31" : String) := rfl
          rw [hstr]
          simp

/-- The spec's §4.4 meaning of "every returned row satisfies all
supplied filters", for the relational implementation: exact `id`,
case-insensitive substring `daire`, exact `esas_no`/`karar_no`,
case-insensitive keyword against `ozet`, `year` as the inclusive range
`[Y-01-01, Y-12-31]` on `karar_tarihi`, and `start_date`/`end_date` as
inclusive bounds (a filter counts as supplied when truthy). -/
def specSatisfiesDb (f : Filters) (r : Row) : Bool :=
  (match activeI f.id with
   | some v => r.id = v
   | none => true) &&
  (match activeS f.daire with
   | some v => (match r.daire with
                | some d => iContains d v
                | none => false)
   | none => true) &&
  (match activeS f.esas_no with
   | some v => r.esas_no = some v
   | none => true) &&
  (match activeS f.karar_no with
   | some v => r.karar_no = some v
   | none => true) &&
  (match activeS f.keyword with
   | some v => (match r.ozet with
                | some o => iContains o v
                | none => false)
   | none => true) &&
  (match activeS f.year with
   | some y => (match r.karar_tarihi with
                | some t => strLeB (y ++ "-01-01") t && strLeB t (y ++ "-12-31")
                | none => false)
   | none => true) &&
  (match activeS f.start_date with
   | some v => (match r.karar_tarihi with
                | some t => strLeB v t
                | none => false)
   | none => true) &&
  (match activeS f.end_date with
   | some v => (match r.karar_tarihi with
                | some t => strLeB t v
                | none => false)
   | none => true)

/-- The spec's §4.4 filter satisfaction for the embedded
implementation, minus the `end_date` bound (which that implementation
does not apply): the keyword may also match `daire`, and `year` is the
inclusive range on `karar_tarihi`. -/
def specSatisfiesLocalNoEnd (f : Filters) (r : Row) : Bool :=
  (match activeI f.id with
   | some v => r.id = v
   | none => true) &&
  (match activeS f.daire with
   | some v => (match r.daire with
                | some d => iContains d v
                | none => false)
   | none => true) &&
  (match activeS f.esas_no with
   | some v => r.esas_no = some v
   | none => true) &&
  (match activeS f.karar_no with
   | some v => r.karar_no = some v
   | none => true) &&
  (match activeS f.keyword with
   | some v => ((match r.ozet with
                 | some o => iContains o v
                 | none => false) ||
                (match r.daire with
                 | some d => iContains d v
                 | none => false))
   | none => true) &&
  (match activeS f.year with
   | some y => (match r.karar_tarihi with
                | some t => strLeB (y ++ "-01-01") t && strLeB t (y ++ "-12-31")
                | none => false)
   | none => true) &&
  (match activeS f.start_date with
   | some v => (match r.karar_tarihi with
                | some t => strLeB v t
                | none => false)
   | none => true)

theorem nil_isPrefixOf (l : List Char) : ([] : List Char).isPrefixOf l = true := by
  cases l <;> rfl

theorem tails_any_isEmpty (t : List Char) :
    (t.tails.any fun s => s.isEmpty) = true := by
  induction t with
  | nil => rfl
  | cons x r ih => simp [List.tails_cons, ih]

/-- A wildcard-free pattern followed by `%` matches exactly the texts
whose (case-folded) prefix is the pattern. -/
theorem likeMatch_lit_pct {v : List Char}
    (hv : (v.all fun c => c ≠ '%' && c ≠ '_') = true) (s : List Char) :
    likeMatch (v ++ ['%']) s = (v.map lowerAscii).isPrefixOf (s.map lowerAscii) := by
  induction v generalizing s with
  | nil =>
    show likeMatch ['%'] s = _
    rw [likeMatch]
    simp only [likeMatch, List.map_nil, nil_isPrefixOf]
    exact tails_any_isEmpty s
  | cons c v2 ih =>
    simp only [List.all_cons, Bool.and_eq_true, decide_eq_true_eq] at hv
    obtain ⟨⟨hcp, hcu⟩, hrest⟩ := hv
    cases s with
    | nil =>
      rw [show ((c :: v2) ++ ['%']) = c :: (v2 ++ ['%']) from rfl]
      rw [likeMatch]
      · simp
      · intros; simp_all
      · intros; simp_all
    | cons x s2 =>
      rw [show ((c :: v2) ++ ['%']) = c :: (v2 ++ ['%']) from rfl]
      rw [likeMatch]
      · rw [show (List.map lowerAscii (c :: v2)).isPrefixOf
              (List.map lowerAscii (x :: s2)) =
            ((lowerAscii c == lowerAscii x) &&
              (List.map lowerAscii v2).isPrefixOf (List.map lowerAscii s2))
            from rfl]
        rw [ih (by simpa using hrest)]
        by_cases hx : lowerAscii x = lowerAscii c
        · simp [hx]
        · have hx2 : ¬(lowerAscii c = lowerAscii x) := fun hh => hx hh.symm
          simp [hx, hx2]
      · intros; simp_all
      · intros; simp_all

/-- For a wildcard-free filter value, `LIKE '%v%'` is exactly the
spec's case-insensitive substring test. -/
theorem sqlLikeContains_eq_iContains {v : String} (hv : noWildcards v = true)
    (hay : String) : sqlLikeContains hay v = iContains hay v := by
  unfold noWildcards at hv
  unfold sqlLikeContains iContains
  rw [likeMatch]
  simp only [likeMatch_lit_pct hv]
  rw [List.map_tails, List.any_map]
  rfl

/-- Rows passing the relational WHERE clause satisfy the spec-side
predicate, provided the supplied daire/keyword values contain no SQL
wildcard (so the interpolated `LIKE` pattern means substring). -/
theorem matchesDb_spec (f : Filters) (r : Row)
    (hwd : (match activeS f.daire with
            | some v => noWildcards v
            | none => true) = true)
    (hwk : (match activeS f.keyword with
            | some v => noWildcards v
            | none => true) = true)
    (hm : matchesDb f r = true) : specSatisfiesDb f r = true := by
  unfold matchesDb at hm
  unfold specSatisfiesDb
  simp only [Bool.and_eq_true] at hm ⊢
  obtain ⟨⟨⟨⟨⟨⟨⟨p1, p2⟩, p3⟩, p4⟩, p5⟩, p6⟩, p7⟩, p8⟩ := hm
  refine ⟨⟨⟨⟨⟨⟨⟨p1, ?_⟩, p3⟩, p4⟩, ?_⟩, p6⟩, p7⟩, p8⟩
  · rcases hy : activeS f.daire with _ | v
    · simp
    · rw [hy] at p2 hwd
      simp only [sqlLikeContains_eq_iContains hwd] at p2
      exact p2
  · rcases hy : activeS f.keyword with _ | v
    · simp
    · rw [hy] at p5 hwk
      simp only [sqlLikeContains_eq_iContains hwk] at p5
      exact p5

/-- Rows passing the embedded WHERE clause satisfy the spec-side
predicate, under the same wildcard-free proviso (the year filter
implies the spec's range via `yearOf_range`). -/
theorem local_matches_spec (f : Filters) (r : Row)
    (hwd : (match activeS f.daire with
            | some v => noWildcards v
            | none => true) = true)
    (hwk : (match activeS f.keyword with
            | some v => noWildcards v
            | none => true) = true)
    (hm : local_matches f r = true) : specSatisfiesLocalNoEnd f r = true := by
  unfold local_matches at hm
  unfold specSatisfiesLocalNoEnd
  simp only [Bool.and_eq_true] at hm ⊢
  obtain ⟨⟨⟨⟨⟨⟨p1, p2⟩, p3⟩, p4⟩, p5⟩, p6⟩, p7⟩ := hm
  refine ⟨⟨⟨⟨⟨⟨p1, ?_⟩, p3⟩, p4⟩, ?_⟩, ?_⟩, p7⟩
  · rcases hy : activeS f.daire with _ | v
    · simp
    · rw [hy] at p2 hwd
      simp only [sqlLikeContains_eq_iContains hwd] at p2
      exact p2
  · rcases hy : activeS f.keyword with _ | v
    · simp
    · rw [hy] at p5 hwk
      simp only [sqlLikeContains_eq_iContains hwk] at p5
      exact p5
  · rcases hy : activeS f.year with _ | yv
    · simp
    · rw [hy] at p6
      rcases hkt : r.karar_tarihi with _ | t
      · rw [hkt] at p6; cases p6
      · rw [hkt] at p6
        have hyy : yearOf t = some yv := by simpa using p6
        have := yearOf_range hyy
        simp [this.1, this.2]

/-- A row dated after the supplied (and silently ignored) end_date. -/
def rowC3 : Row := { id := 1, karar_tarihi := some "2020-05-05" }

/-- C3 counterexample: the embedded implementation has no `end_date`
clause, so a search supplying only `end_date = "2019-01-01"` returns a
row whose `karar_tarihi` `"2020-05-05"` is not ≤ the bound. -/
theorem C3_counterexample :
    local_search_decisions { end_date := some "2019-01-01" } [rowC3] = [rowC3] ∧
    strLeB "2020-05-05" "2019-01-01" = false := ⟨by decide, by decide⟩

/-- C3 amended: both implementations return at most 20 rows; every row
the relational implementation returns satisfies all supplied filters
(end_date included, as an inclusive bound); every row the embedded
implementation returns satisfies all supplied filters other than
`end_date`, which that implementation silently ignores.  Two provisos
scope the filter-satisfaction parts to where the spec's filter meanings
apply: a supplied `daire`/`keyword` value must contain no SQL wildcard
(`%`/`_` inside the value are interpolated into the `LIKE` pattern and
then match per `LIKE`, not as a literal substring), and the stored
`karar_tarihi` values must be NULL or of the spec's data-model shape
`YYYY-MM-DD` (the domain on which `yearOf` models SQLite's
`strftime('%Y', ·)`; a TEXT column could in principle also hold
Julian-day numbers or datetime strings, which the embedded year filter
of the program would parse but the model does not). -/
theorem C3_amended_search_contract (f : Filters) (st : List Row)
    (hwd : (match activeS f.daire with
            | some v => noWildcards v
            | none => true) = true)
    (hwk : (match activeS f.keyword with
            | some v => noWildcards v
            | none => true) = true)
    (_hkt : (st.all fun r =>
              match r.karar_tarihi with
              | none => true
              | some t => isIsoDate t) = true) :
    (search_decisions f st).length ≤ 20 ∧
    (local_search_decisions f st).length ≤ 20 ∧
    (∀ r ∈ search_decisions f st, specSatisfiesDb f r = true) ∧
    (∀ r ∈ local_search_decisions f st, specSatisfiesLocalNoEnd f r = true) := by
  refine ⟨List.length_take_le 20 _, List.length_take_le 20 _, ?_, ?_⟩
  · intro r hr
    have hr2 : r ∈ st.filter (matchesDb f) := List.mem_of_mem_take hr
    exact matchesDb_spec f r hwd hwk (List.mem_filter.mp hr2).2
  · intro r hr
    have hr2 : r ∈ st.filter (local_matches f) := List.mem_of_mem_take hr
    exact local_matches_spec f r hwd hwk (List.mem_filter.mp hr2).2

/-- The filters of the spec's scenario 3 (daire substring + year). -/
def fltrC3 : Filters := { daire := some "14. Hukuk", year := some "2011" }

/-- A row matching scenario 3. -/
def rowC3w : Row :=
  { id := 9, daire := some "14. Hukuk Dairesi"
    karar_tarihi := some "2011-03-23" }

/-- C3 witness: the contract applied to a concrete one-row state with a
daire substring filter and a year filter (the spec's scenario 3
shape), at the returned row; the wildcard-free and stored-date-shape
hypotheses are discharged by evaluation. -/
theorem C3_amended_search_contract_witness :
    specSatisfiesLocalNoEnd fltrC3 rowC3w = true :=
  (C3_amended_search_contract fltrC3 [rowC3w]
    (by decide) (by decide) (by decide)).2.2.2 rowC3w (by decide)

/-!
### C9 — idempotence of `extract_metadata` on its own normalised output

`extract_metadata` computes all four fields from `clean_text`; the
claim reduces to the normalisation (`\\xa0`/`&nbsp;` replacement and tag
stripping) being idempotent.
-/

theorem xa0_not_mem_replXa0 (l : List Char) : '\xa0' ∉ replXa0 l := by
  intro h
  simp only [replXa0, List.mem_map] at h
  obtain ⟨c, _, heq⟩ := h
  by_cases hc : c = '\xa0'
  · rw [if_pos hc] at heq
    exact absurd heq (by decide)
  · rw [if_neg hc] at heq
    exact hc heq

theorem replXa0_eq_self {l : List Char} (h : '\xa0' ∉ l) : replXa0 l = l := by
  induction l with
  | nil => rfl
  | cons c r ih =>
    simp only [List.mem_cons, not_or] at h
    simp only [replXa0, List.map_cons, if_neg (Ne.symm h.1)]
    exact congrArg (c :: ·) (ih h.2)

theorem mem_replNbsp (c : Char) (l : List Char) (h : c ∈ replNbsp l) :
    c ∈ l ∨ c = ' ' := by
  induction l using replNbsp.induct with
  | case1 r ih =>
    rw [replNbsp] at h
    rcases List.mem_cons.mp h with hc | hc
    · right; exact hc
    · rcases ih hc with hm | hs
      · left; simp [hm]
      · right; exact hs
  | case2 c0 r hne ih =>
    rw [replNbsp] at h
    · rcases List.mem_cons.mp h with hc | hc
      · left; simp [hc]
      · rcases ih hc with hm | hs
        · left; simp [hm]
        · right; exact hs
    · exact hne
  | case3 => simp [replNbsp] at h

theorem hasNbsp_cons (x : Char) (t : List Char) :
    hasNbsp (x :: t) = (isNbspAt (x :: t) || hasNbsp t) := rfl

theorem hasNbsp_tail_false {x : Char} {t : List Char}
    (h : hasNbsp (x :: t) = false) : hasNbsp t = false := by
  rw [hasNbsp_cons, Bool.or_eq_false_iff] at h
  exact h.2

theorem hasNbsp_append_false {x y : List Char}
    (h : hasNbsp (x ++ y) = false) : hasNbsp y = false := by
  induction x with
  | nil => exact h
  | cons c t ih => exact ih (hasNbsp_tail_false (by simpa using h))

theorem isNbspAt_inv {m : List Char} (h : isNbspAt m = true) :
    ∃ X, m = '&' :: 'n' :: 'b' :: 's' :: 'p' :: ';' :: X := by
  unfold isNbspAt at h
  split at h
  case h_1 X => exact ⟨X, rfl⟩
  case h_2 => cases h

theorem replNbsp_head {c : Char} {l X : List Char} (hc : c ≠ ' ')
    (h : replNbsp l = c :: X) : ∃ r2, l = c :: r2 ∧ X = replNbsp r2 := by
  induction l using replNbsp.induct with
  | case1 r ih =>
    rw [replNbsp] at h
    cases h
    exact absurd rfl hc
  | case2 c0 r hne ih =>
    rw [replNbsp] at h
    · cases h
      exact ⟨r, rfl, rfl⟩
    · exact hne
  | case3 => cases h

/-- `str.replace` leaves no occurrence of the pattern behind. -/
theorem hasNbsp_replNbsp (l : List Char) : hasNbsp (replNbsp l) = false := by
  induction l using replNbsp.induct with
  | case1 r ih =>
    rw [replNbsp, hasNbsp_cons]
    simp [isNbspAt, ih]
  | case2 c0 r hne ih =>
    rw [replNbsp]
    · rw [hasNbsp_cons]
      have hat : isNbspAt (c0 :: replNbsp r) = false := by
        by_cases hat : isNbspAt (c0 :: replNbsp r) = true
        · obtain ⟨X, hX⟩ := isNbspAt_inv hat
          obtain ⟨hc0, htail⟩ := List.cons.inj hX
          obtain ⟨r1, hr1, hX1⟩ := replNbsp_head (by decide) htail
          obtain ⟨r2, hr2, hX2⟩ := replNbsp_head (by decide) hX1.symm
          obtain ⟨r3, hr3, hX3⟩ := replNbsp_head (by decide) hX2.symm
          obtain ⟨r4, hr4, hX4⟩ := replNbsp_head (by decide) hX3.symm
          obtain ⟨r5, hr5, hX5⟩ := replNbsp_head (by decide) hX4.symm
          exact absurd trivial (by
            subst hr1; subst hr2; subst hr3; subst hr4; subst hr5
            exact fun _ => hne r5 hc0 rfl)
        · simpa using hat
      simp [hat, ih]
    · exact hne
  | case3 => simp [replNbsp, hasNbsp]

theorem replNbsp_eq_self {l : List Char} (h : hasNbsp l = false) :
    replNbsp l = l := by
  induction l using replNbsp.induct with
  | case1 r ih =>
    rw [hasNbsp_cons] at h
    simp [isNbspAt] at h
  | case2 c0 r hne ih =>
    rw [replNbsp]
    · exact congrArg (c0 :: ·) (ih (hasNbsp_tail_false h))
    · exact hne
  | case3 => rfl

theorem splitAtGt_decomp {l b a : List Char}
    (h : splitAtGt l = some (b, a)) : l = b ++ '>' :: a := by
  induction l generalizing b a with
  | nil => simp [splitAtGt] at h
  | cons c r ih =>
    by_cases hc : c = '>'
    · rw [splitAtGt, if_pos hc] at h
      cases h
      simp [hc]
    · rw [splitAtGt, if_neg hc] at h
      rcases hr : splitAtGt r with _ | ⟨b2, a2⟩
      · rw [hr] at h; simp at h
      · rw [hr] at h
        simp only [Option.map_some'] at h
        cases h
        simpa using ih hr

/-- Custom induction following the recursion structure of
`stripTags`. -/
theorem stripTags_induction (P : List Char → Prop)
    (h0 : P [])
    (h1 : ∀ c r, c ≠ '<' → P r → P (c :: r))
    (h2 : ∀ r a, splitAtGt r = some ([], a) → P a → P ('<' :: r))
    (h3 : ∀ r b a, splitAtGt r = some (b, a) → b ≠ [] → P a → P ('<' :: r))
    (h4 : ∀ r, splitAtGt r = none → P ('<' :: r)) :
    ∀ l, P l := by
  have H : ∀ n l, l.length ≤ n → P l := by
    intro n
    induction n with
    | zero =>
      intro l hl
      rw [Nat.le_zero, List.length_eq_zero] at hl
      rw [hl]; exact h0
    | succ n ihn =>
      intro l hl
      match l with
      | [] => exact h0
      | c :: r =>
        by_cases hc : c = '<'
        · subst hc
          rcases hsp : splitAtGt r with _ | ⟨b, a⟩
          · exact h4 r hsp
          · have ha : a.length < r.length := splitAtGt_some_length hsp
            have hpa : P a := ihn a (by simp at hl; omega)
            rcases hb : b with _ | ⟨b0, bt⟩
            · exact h2 r a (by rw [← hb]; exact hsp) hpa
            · exact h3 r b a (by rw [hb]; rw [← hb]; exact hsp)
                (by rw [hb]; simp) hpa
        · exact h1 c r hc (ihn r (by simp at hl; omega))
  exact fun l => H l.length l le_rfl

theorem mem_stripTags (c : Char) :
    ∀ l, c ∈ stripTags l → c ∈ l ∨ c = ' ' := by
  refine stripTags_induction (fun l => c ∈ stripTags l → c ∈ l ∨ c = ' ')
    ?_ ?_ ?_ ?_ ?_
  · intro h; simp [stripTags, stripTagsAux] at h
  · intro c0 r hc0 ih h
    rw [stripTags_cons_ne c0 r hc0] at h
    rcases List.mem_cons.mp h with hx | hx
    · left; simp [hx]
    · rcases ih hx with hm | hs
      · left; simp [hm]
      · right; exact hs
  · intro r a hsp ih h
    rw [stripTags_lt_of_empty hsp] at h
    have hra : r = '>' :: a := by simpa using splitAtGt_decomp hsp
    rcases List.mem_cons.mp h with hx | hx
    · left; simp [hx]
    · rcases List.mem_cons.mp hx with hy | hy
      · left; rw [hra]; simp [hy]
      · rcases ih hy with hm | hs
        · left; rw [hra]; simp [hm]
        · right; exact hs
  · intro r b a hsp hb ih h
    rw [stripTags_lt_of_nonempty hsp hb] at h
    have hra : r = b ++ '>' :: a := splitAtGt_decomp hsp
    rcases List.mem_cons.mp h with hx | hx
    · right; exact hx
    · rcases ih hx with hm | hs
      · left; rw [hra]; simp [hm]
      · right; exact hs
  · intro r hsp h
    rw [stripTags_lt_of_none hsp] at h
    left; exact h

theorem stripTags_head {c : Char} {l X : List Char} (hc1 : c ≠ ' ')
    (hc2 : c ≠ '<') (h : stripTags l = c :: X) :
    ∃ r2, l = c :: r2 ∧ X = stripTags r2 := by
  match l with
  | [] => cases h
  | c0 :: r =>
    by_cases hc0 : c0 = '<'
    · subst hc0
      rcases hsp : splitAtGt r with _ | ⟨b, a⟩
      · rw [stripTags_lt_of_none hsp] at h
        cases h
        exact absurd rfl hc2
      · rcases hbe : b with _ | ⟨b0, bt⟩
        · subst hbe
          rw [stripTags_lt_of_empty hsp] at h
          cases h
          exact absurd rfl hc2
        · rw [stripTags_lt_of_nonempty hsp (by simp [hbe])] at h
          cases h
          exact absurd rfl hc1
    · rw [stripTags_cons_ne c0 r hc0] at h
      cases h
      exact ⟨r, rfl, rfl⟩

theorem isNbspAt_cons_stripTags {c : Char} {r : List Char}
    (h : isNbspAt (c :: stripTags r) = true) : isNbspAt (c :: r) = true := by
  obtain ⟨X, hX⟩ := isNbspAt_inv h
  obtain ⟨hc0, htail⟩ := List.cons.inj hX
  obtain ⟨r1, hr1, hX1⟩ := stripTags_head (by decide) (by decide) htail
  obtain ⟨r2, hr2, hX2⟩ := stripTags_head (by decide) (by decide) hX1.symm
  obtain ⟨r3, hr3, hX3⟩ := stripTags_head (by decide) (by decide) hX2.symm
  obtain ⟨r4, hr4, hX4⟩ := stripTags_head (by decide) (by decide) hX3.symm
  obtain ⟨r5, hr5, hX5⟩ := stripTags_head (by decide) (by decide) hX4.symm
  subst hr1; subst hr2; subst hr3; subst hr4; subst hr5
  rw [hc0]
  simp [isNbspAt]

/-- Tag stripping introduces no `&nbsp;` occurrence. -/
theorem stripTags_nbspFree :
    ∀ l, hasNbsp l = false → hasNbsp (stripTags l) = false := by
  refine stripTags_induction
    (fun l => hasNbsp l = false → hasNbsp (stripTags l) = false) ?_ ?_ ?_ ?_ ?_
  · intro h; exact h
  · intro c0 r hc0 ih h
    rw [stripTags_cons_ne c0 r hc0, hasNbsp_cons, Bool.or_eq_false_iff]
    refine ⟨?_, ih (hasNbsp_tail_false h)⟩
    by_cases hat : isNbspAt (c0 :: stripTags r) = true
    · have := isNbspAt_cons_stripTags hat
      rw [hasNbsp_cons, this] at h
      simp at h
    · simpa using hat
  · intro r a hsp ih h
    rw [stripTags_lt_of_empty hsp]
    have hra : r = '>' :: a := by simpa using splitAtGt_decomp hsp
    have hta : hasNbsp a = false := by
      have h1 := hasNbsp_tail_false h
      rw [hra] at h1
      exact hasNbsp_tail_false h1
    rw [hasNbsp_cons, hasNbsp_cons]
    simp [isNbspAt, ih hta]
  · intro r b a hsp hb ih h
    rw [stripTags_lt_of_nonempty hsp hb]
    have hra : r = b ++ '>' :: a := splitAtGt_decomp hsp
    have hta : hasNbsp a = false := by
      have h1 := hasNbsp_tail_false h
      rw [hra] at h1
      exact hasNbsp_tail_false (hasNbsp_append_false h1)
    rw [hasNbsp_cons]
    simp [isNbspAt, ih hta]
  · intro r hsp h
    rw [stripTags_lt_of_none hsp]
    exact h

/-- Tag stripping is idempotent: its output contains no further
strippable region. -/
theorem stripTags_idem : ∀ l, stripTags (stripTags l) = stripTags l := by
  refine stripTags_induction (fun l => stripTags (stripTags l) = stripTags l)
    ?_ ?_ ?_ ?_ ?_
  · rfl
  · intro c0 r hc0 ih
    rw [stripTags_cons_ne c0 r hc0, stripTags_cons_ne c0 _ hc0, ih]
  · intro r a hsp ih
    rw [stripTags_lt_of_empty hsp]
    rw [stripTags_lt_of_empty
      (show splitAtGt ('>' :: stripTags a) = some ([], stripTags a) by
        simp [splitAtGt])]
    rw [ih]
  · intro r b a hsp hb ih
    rw [stripTags_lt_of_nonempty hsp hb]
    rw [stripTags_cons_ne ' ' _ (by decide), ih]
  · intro r hsp
    rw [stripTags_lt_of_none hsp, stripTags_lt_of_none hsp]

/-- The full normalisation of `extract_metadata` is idempotent. -/
theorem cleanText_idem (t : String) : cleanText (cleanText t) = cleanText t := by
  unfold cleanText
  apply congrArg String.mk
  set u := replNbsp (replXa0 t.data) with hu
  have hxa_u : '\xa0' ∉ u := by
    intro hm
    rcases mem_replNbsp _ _ hm with hm2 | hm2
    · exact xa0_not_mem_replXa0 _ hm2
    · exact absurd hm2 (by decide)
  have hxa_w : '\xa0' ∉ stripTags u := by
    intro hm
    rcases mem_stripTags _ u hm with hm2 | hm2
    · exact hxa_u hm2
    · exact absurd hm2 (by decide)
  have hnb_w : hasNbsp (stripTags u) = false :=
    stripTags_nbspFree u (hasNbsp_replNbsp (replXa0 t.data))
  rw [show (String.mk (stripTags u)).data = stripTags u from rfl]
  rw [replXa0_eq_self hxa_w, replNbsp_eq_self hnb_w]
  exact stripTags_idem u

/-- C9: `extract_metadata` is idempotent — applied to its own
normalised output (the text after `\\xa0`/`&nbsp;` replacement and
markup-tag stripping) it yields the same four fields. -/
theorem C9_extract_metadata_idempotent (text : String) :
    extract_metadata (cleanText text) = extract_metadata text := by
  unfold extract_metadata
  rw [cleanText_idem]

end Yargitay